import Mathlib

/-!
Verification development for the Balansea rebalancing backend.

The definitions below are shallow embeddings of the TypeScript sources:

* `calculateRebalanceSwaps`, `calculateTokenAmounts`, `validateSwapOperation`
  from `lib/agenda/jobs/portfolioMonitoring/utils/rebalanceUtils.ts`;
* `calculateCurrentAllocations` from
  `lib/agenda/jobs/portfolioMonitoring/utils/balanceUtils.ts`;
* `executeRebalanceSwaps` from
  `lib/agenda/jobs/portfolioMonitoring/utils/swapUtils.ts`;
* `portfolioMonitoring` from
  `lib/agenda/jobs/portfolioMonitoring/portfolioMonitoring.ts`;
* `RebalanceService.calculateDeviations` / `generateSwapOperations` from
  `lib/services/rebalanceService.ts`;
* `PortfolioMonitoringJob.recordRebalanceJob` from
  `lib/agenda/jobs/portfolioMonitoringJob.ts`;
* the Zod allocation validation from `lib/express/portfolioSchema.ts` and the
  service-side check in `lib/services/portfolioService.ts`.

Numbers are modelled by `ℚ`; JavaScript exceptions by `Except String`;
`ethers.BigNumber` values by `Int`.  Database reads, chain reads and swap-venue
calls are modelled as explicit inputs (oracles).  JavaScript's
`Number.prototype.toFixed(d)` (round to nearest at `d` decimals, ties away
from the smaller value) composed with `ethers.utils.parseUnits` is modelled by
`jsToFixedUnits`.
-/

/-- Asset description as carried inside `PortfolioAllocation.asset`
(`balanceUtils.ts`). -/
structure AssetInfo where
  symbol : String
  address : String
  decimals : Nat
  deriving Repr, DecidableEq

deriving instance DecidableEq for Except

/-- `PortfolioAllocation` from `balanceUtils.ts`.  The source interface omits
`currentPriceUSD`, yet `calculateRebalanceSwaps` reads that field from its
allocations ("Use prices directly from Pyth (already calculated in
balanceUtils)"); the embedding carries the per-asset price the balance layer
computed so the planner is a total function of its input record. -/
structure PortfolioAllocation where
  asset : AssetInfo
  targetPercentage : ℚ
  currentPercentage : ℚ
  currentValueUSD : ℚ
  currentPriceUSD : ℚ
  currentBalance : String
  gap : ℚ
  needsRebalance : Bool
  deriving Repr, DecidableEq

/-- `SwapOperation` from `rebalanceUtils.ts`.  `amountInTokens` and
`amountOutTokens` are the numeric values of the `BigNumber.toString()` strings
of the source. -/
structure SwapOperation where
  tokenInSymbol : String
  tokenOutSymbol : String
  tokenInAddress : String
  tokenOutAddress : String
  tokenInDecimals : Nat
  tokenOutDecimals : Nat
  amountInUSD : ℚ
  amountInTokens : Int
  amountOutTokens : Int
  gap : ℚ
  deriving Repr, DecidableEq

/-- `RebalancePlan` from `rebalanceUtils.ts`. -/
structure RebalancePlan where
  swaps : List SwapOperation
  totalValueUSD : ℚ
  isRebalanceNeeded : Bool
  deriving Repr, DecidableEq

/-- One element of the `targetValuesUSD` working array of
`calculateRebalanceSwaps`, extended with the `difference` field added when the
element is pushed onto `assetsToBuy` / `assetsToSell`. -/
structure RebalEntry where
  symbol : String
  targetValueUSD : ℚ
  currentValueUSD : ℚ
  gap : ℚ
  asset : AssetInfo
  difference : ℚ
  deriving Repr, DecidableEq

/-- Model of `parseUnits(x.toFixed(d), d)` (ECMAScript `toFixed` rounds to the
nearest multiple of `10 ^ (-d)`, choosing the larger value on ties, and
`parseUnits` then rescales the decimal string to an integer). -/
def jsToFixedUnits (x : ℚ) (d : Nat) : Int :=
  Int.floor (x * (10 : ℚ) ^ d + 1 / 2)

/-- The working entry built from one allocation inside
`calculateRebalanceSwaps` (the `targetValuesUSD` map step). -/
def mkEntry (total : ℚ) (a : PortfolioAllocation) (d : ℚ) : RebalEntry :=
  { symbol := a.asset.symbol
    targetValueUSD := total * a.targetPercentage
    currentValueUSD := a.currentValueUSD
    gap := a.gap
    asset := a.asset
    difference := d }

/-- `assetsToBuy`: allocations whose `targetValueUSD - currentValueUSD` is
positive, with that difference attached (source lines 69-79). -/
def assetsToBuy (total : ℚ) (l : List PortfolioAllocation) : List RebalEntry :=
  l.filterMap fun a =>
    let diff := total * a.targetPercentage - a.currentValueUSD
    if 0 < diff then some (mkEntry total a diff) else none

/-- `assetsToSell`: allocations whose difference is negative, stored with its
absolute value (source lines 69-79). -/
def assetsToSell (total : ℚ) (l : List PortfolioAllocation) : List RebalEntry :=
  l.filterMap fun a =>
    let diff := total * a.targetPercentage - a.currentValueUSD
    if diff < 0 then some (mkEntry total a |diff|) else none

/-- The body of `assetsToSell.reduce((max, asset) => asset.difference >
max.difference ? asset : max)`: a left fold that replaces the accumulator only
on a strictly larger difference, hence returns the first maximal element. -/
def selectSellFold (x : RebalEntry) (l : List RebalEntry) : RebalEntry :=
  l.foldl (fun m a => if m.difference < a.difference then a else m) x

/-- `assetsToSell.reduce(...)` itself; JavaScript throws a `TypeError` on an
empty array with no initial value, modelled by `none`. -/
def selectSell : List RebalEntry → Option RebalEntry
  | [] => none
  | x :: xs => some (selectSellFold x xs)

/-- Mutation `sellAsset.difference -= sellAmountUSD` on the array element that
the reduce returned: the first entry whose difference equals the selected
maximum is decremented, all others are untouched. -/
def decrementAtFirst (m amt : ℚ) : List RebalEntry → List RebalEntry
  | [] => []
  | a :: l =>
      if a.difference = m then { a with difference := a.difference - amt } :: l
      else a :: decrementAtFirst m amt l

/-- The `SwapOperation` pushed for one buy/sell pairing (source lines
119-141). -/
def mkSwapOp (sell buy : RebalEntry) (sellAlloc buyAlloc : PortfolioAllocation)
    (amt : ℚ) : SwapOperation :=
  { tokenInSymbol := sell.symbol
    tokenOutSymbol := buy.symbol
    tokenInAddress := sell.asset.address
    tokenOutAddress := buy.asset.address
    tokenInDecimals := sell.asset.decimals
    tokenOutDecimals := buy.asset.decimals
    amountInUSD := amt
    amountInTokens := jsToFixedUnits (amt / sellAlloc.currentPriceUSD) sell.asset.decimals
    amountOutTokens := jsToFixedUnits (amt / buyAlloc.currentPriceUSD) buy.asset.decimals
    gap := |sell.gap| + |buy.gap| }

/-- The `for (const buyAsset of assetsToBuy)` loop of
`calculateRebalanceSwaps` (source lines 86-153).  The sell list is the mutable
state; `acc` is the `swaps` array being pushed to.  An empty sell list makes
the `reduce` call throw. -/
def processBuys (allocs : List PortfolioAllocation) :
    List RebalEntry → List RebalEntry → List SwapOperation →
    Except String (List SwapOperation)
  | _, [], acc => Except.ok acc
  | sells, buy :: rest, acc =>
    match selectSell sells with
    | none => Except.error "Reduce of empty array with no initial value"
    | some sell =>
      if 1 / 100 < sell.difference then
        let amt := min sell.difference buy.difference
        match allocs.find? (fun a => a.asset.symbol = sell.symbol),
            allocs.find? (fun a => a.asset.symbol = buy.symbol) with
        | some sellAlloc, some buyAlloc =>
            processBuys allocs (decrementAtFirst sell.difference amt sells) rest
              (acc ++ [mkSwapOp sell buy sellAlloc buyAlloc amt])
        | _, _ => processBuys allocs sells rest acc
      else processBuys allocs sells rest acc

/-- `calculateRebalanceSwaps` from `rebalanceUtils.ts`.  The `tolerance`
parameter is accepted (default `0.001` at the call site) but, as in the
source, never read.  The final `swaps.sort((a, b) => b.gap - a.gap)` is a
stable descending sort on `gap`. -/
def calculateRebalanceSwaps (allocations : List PortfolioAllocation)
    (tolerance : ℚ) : Except String RebalancePlan :=
  let totalValueUSD := (allocations.map fun a => a.currentValueUSD).sum
  if totalValueUSD = 0 then
    Except.ok { swaps := [], totalValueUSD := 0, isRebalanceNeeded := false }
  else if (allocations.filter fun a => a.needsRebalance).isEmpty then
    Except.ok { swaps := [], totalValueUSD := totalValueUSD, isRebalanceNeeded := false }
  else
    match processBuys allocations (assetsToSell totalValueUSD allocations)
        (assetsToBuy totalValueUSD allocations) [] with
    | Except.error e => Except.error e
    | Except.ok swaps =>
      let sorted := List.insertionSort (fun a b => b.gap ≤ a.gap) swaps
      Except.ok { swaps := sorted, totalValueUSD := totalValueUSD,
                  isRebalanceNeeded := !sorted.isEmpty }

/-- `calculateTokenAmounts` from `rebalanceUtils.ts` (USD to token units via
`toFixed`/`parseUnits`). -/
def calculateTokenAmounts (usdAmount tokenPrice : ℚ) (decimals : Nat) :
    Int × ℚ :=
  let amountFormatted := usdAmount / tokenPrice
  (jsToFixedUnits amountFormatted decimals, amountFormatted)

/-- `validateSwapOperation` from `rebalanceUtils.ts`: rejects dust amounts
below $0.01 and same-token swaps. -/
def validateSwapOperation (swap : SwapOperation) : Bool :=
  if swap.amountInUSD < 1 / 100 then false
  else if swap.tokenInAddress = swap.tokenOutAddress then false
  else true

/-- Total `amountInUSD` this plan sells out of the asset with symbol `s`. -/
def sumFromSymbol (s : String) (swaps : List SwapOperation) : ℚ :=
  ((swaps.filter fun w => w.tokenInSymbol = s).map fun w => w.amountInUSD).sum

/-- Total `amountInUSD` this plan buys into the asset with symbol `s`. -/
def sumToSymbol (s : String) (swaps : List SwapOperation) : ℚ :=
  ((swaps.filter fun w => w.tokenOutSymbol = s).map fun w => w.amountInUSD).sum

/-- Remaining USD difference carried by the working entries of symbol `s`. -/
def symbolDiffSum (s : String) (l : List RebalEntry) : ℚ :=
  ((l.filter fun e => e.symbol = s).map fun e => e.difference).sum

/-! ### Deviation calculation (`rebalanceService.ts`) -/

namespace RebalanceService

/-- `DeviationResult` from `rebalanceService.ts`. -/
structure DeviationResult where
  assetSymbol : String
  targetPercentage : ℚ
  currentPercentage : ℚ
  deviation : ℚ
  needsRebalance : Bool
  currentValueUSD : ℚ
  targetValueUSD : ℚ
  deriving Repr, DecidableEq

/-- `SwapOperation` from `rebalanceService.ts`. -/
structure SwapOperation where
  fromAsset : String
  toAsset : String
  amount : ℚ
  expectedAmount : ℚ
  reason : String
  deriving Repr, DecidableEq

/-- `RebalancePlan` from `rebalanceService.ts`. -/
structure RebalancePlan where
  portfolioId : String
  totalValueUSD : ℚ
  deviations : List DeviationResult
  needsRebalance : Bool
  swaps : List SwapOperation
  deriving Repr, DecidableEq

/-- One entry of `portfolioBalance.balances` as consumed by
`calculateDeviations` (produced by `BalanceService.getPortfolioBalances`). -/
structure BalanceInfo where
  assetSymbol : String
  valueUSD : ℚ
  deriving Repr, DecidableEq

end RebalanceService

/-- JavaScript `x || dflt` on an optional number: `undefined`, `null` and `0`
are falsy and select the default. -/
def jsOrQ (x : Option ℚ) (dflt : ℚ) : ℚ :=
  match x with
  | none => dflt
  | some v => if v = 0 then dflt else v

/-- `RebalanceService.calculateDeviations`: for each allocation with a matching
balance entry, percentage of total, absolute deviation, and the threshold gate
`deviation > (portfolio.rebalanceThreshold || 0.05)`.  The portfolio lookup and
balance refresh are modelled as the explicit inputs. -/
def RebalanceService.calculateDeviations (rebalanceThreshold : Option ℚ)
    (allocations : List (String × ℚ)) (balances : List RebalanceService.BalanceInfo) :
    List RebalanceService.DeviationResult :=
  let totalValueUSD := (balances.map fun b => b.valueUSD).sum
  allocations.filterMap fun al =>
    match balances.find? (fun b => b.assetSymbol = al.1) with
    | none => none
    | some b =>
      let currentPercentage := if 0 < totalValueUSD then b.valueUSD / totalValueUSD else 0
      let deviation := |currentPercentage - al.2|
      some { assetSymbol := al.1
             targetPercentage := al.2
             currentPercentage := currentPercentage
             deviation := deviation
             needsRebalance := decide (jsOrQ rebalanceThreshold (1 / 20) < deviation)
             currentValueUSD := b.valueUSD
             targetValueUSD := totalValueUSD * al.2 }

/-- The body of the inner loop of `RebalanceService.generateSwapOperations`:
the swap pushed (if any) for one excess/deficit pair, offering half the excess
gap, with the source's placeholder price arithmetic
(`currentValueUSD / (parseFloat('1') || 1)`). -/
def RebalanceService.swapFor (excess deficit : RebalanceService.DeviationResult) :
    Option RebalanceService.SwapOperation :=
  if excess.needsRebalance && deficit.needsRebalance then
    let amountToSell := (excess.currentValueUSD - excess.targetValueUSD) / 2
    if 0 < amountToSell then
      let currentPrice := excess.currentValueUSD / 1
      some { fromAsset := excess.assetSymbol
             toAsset := deficit.assetSymbol
             amount := amountToSell / currentPrice
             expectedAmount := amountToSell
             reason := "Rééquilibrage: " ++ excess.assetSymbol ++ " -> " ++ deficit.assetSymbol }
    else none
  else none

/-- `RebalanceService.generateSwapOperations`: participating deviations sorted
by deviation descending, partitioned into excess and deficit, and every
excess/deficit pair generates a swap via `swapFor` (the `totalValueUSD`
parameter is, as in the source, never read). -/
def RebalanceService.generateSwapOperations
    (deviations : List RebalanceService.DeviationResult) (totalValueUSD : ℚ) :
    List RebalanceService.SwapOperation :=
  let sortedDeviations :=
    List.insertionSort (fun a b => b.deviation ≤ a.deviation)
      (deviations.filter fun d => d.needsRebalance)
  let excessAssets := sortedDeviations.filter fun d => d.targetPercentage < d.currentPercentage
  let deficitAssets := sortedDeviations.filter fun d => d.currentPercentage < d.targetPercentage
  excessAssets.flatMap fun excess => deficitAssets.filterMap (RebalanceService.swapFor excess)

/-- Modelled from the spec: `RebalanceService.createStrictRebalancePlan` is
invoked by `PortfolioMonitoringJob.execute` under the `strict_periodic` policy
and described in the repository notes, but its implementation is not among the
sources.  Per the spec ("every asset with nonzero deviation participates (no
gating by a tolerance)") it runs the same swap generation with every
nonzero-deviation asset marked as participating. -/
def createStrictRebalanceSwaps
    (deviations : List RebalanceService.DeviationResult) (totalValueUSD : ℚ) :
    List RebalanceService.SwapOperation :=
  RebalanceService.generateSwapOperations
    (deviations.map fun d => { d with needsRebalance := decide (d.deviation ≠ 0) })
    totalValueUSD

/-! ### Balance aggregation (`balanceUtils.ts`) -/

/-- `CurrentBalance` from `balanceUtils.ts` (chain balance joined with the
latest stored price). -/
structure CurrentBalance where
  symbol : String
  balance : String
  balanceFormatted : ℚ
  usd : ℚ
  priceUSD : ℚ
  deriving Repr, DecidableEq

/-- `calculateCurrentAllocations` from `balanceUtils.ts`: zero total value
yields an empty list; otherwise every allocation is joined with its balance
(defaulting to zero value, `gap = targetPercentage` and `needsRebalance = true`
when the balance is missing) and flagged with the fixed `0.1%` tolerance
`Math.abs(gap) > 0.001` — the portfolio's `rebalanceThreshold` is not
consulted. -/
def calculateCurrentAllocations (balances : List CurrentBalance)
    (allocations : List (AssetInfo × ℚ)) : List PortfolioAllocation :=
  let totalValueUSD := (balances.map fun b => b.usd).sum
  if totalValueUSD = 0 then []
  else
    allocations.map fun al =>
      match balances.find? (fun b => b.symbol = al.1.symbol) with
      | none =>
        { asset := al.1
          targetPercentage := al.2
          currentPercentage := 0
          currentValueUSD := 0
          currentPriceUSD := 0
          currentBalance := "0"
          gap := al.2
          needsRebalance := true }
      | some b =>
        let currentPercentage := b.usd / totalValueUSD
        let gap := currentPercentage - al.2
        { asset := al.1
          targetPercentage := al.2
          currentPercentage := currentPercentage
          currentValueUSD := b.usd
          currentPriceUSD := b.priceUSD
          currentBalance := b.balance
          gap := gap
          needsRebalance := decide ((1 : ℚ) / 1000 < |gap|) }

/-! ### Swap execution (`swapUtils.ts`) -/

/-- Observable outcome of one executor run: the indices of swaps that were
submitted, and either the collected transaction hashes or the thrown error. -/
structure ExecTrace where
  attempted : List Nat
  result : Except String (List String)
  deriving Repr, DecidableEq

/-- The `for (let i = 0; ...)` loop of `executeRebalanceSwaps`
(`swapUtils.ts`).  `oracle i` is the outcome of `executeSwap` plus
`waitForTransaction` for the `i`-th submitted swap (approval, quote, swap and
confirmation are external effects).  A success pushes the hash and continues; a
failure throws `Rebalancing stopped at swap ${i + 1}`, discarding `txHashes`. -/
def executeSwapsFrom (oracle : Nat → Except String String) (i : Nat)
    (acc : List String) : List SwapOperation → ExecTrace
  | [] => { attempted := [], result := Except.ok acc }
  | _ :: rest =>
    match oracle i with
    | Except.ok txHash =>
      let t := executeSwapsFrom oracle (i + 1) (acc ++ [txHash]) rest
      { attempted := i :: t.attempted, result := t.result }
    | Except.error msg =>
      { attempted := [i]
        result := Except.error
          ("Rebalancing stopped at swap " ++ toString (i + 1) ++ ": " ++ msg) }

/-- `executeRebalanceSwaps` from `swapUtils.ts` (strict sequential execution,
abort on first failure). -/
def executeRebalanceSwaps (oracle : Nat → Except String String)
    (swaps : List SwapOperation) : ExecTrace :=
  executeSwapsFrom oracle 0 [] swaps

/-! ### Monitoring cycle (`portfolioMonitoring.ts`) and audit records -/

/-- The fields of a persisted `RebalanceJob` document that the claims are
about. -/
structure RebalanceJobRecord where
  status : String
  rebalanceType : String
  deviationDetected : Option ℚ
  txHashes : List String
  deriving Repr, DecidableEq

/-- External state consumed by one monitoring cycle: the portfolio lookup, the
allocations computed after the balance refresh, and the per-swap execution
outcomes. -/
structure MonitoringEnv where
  portfolioFound : Bool
  isActive : Bool
  currentAllocations : List PortfolioAllocation
  swapOracle : Nat → Except String String

/-- Everything a cycle persists or signals: `RebalanceJob` documents saved
(the source saves none on any path of `portfolioMonitoring`), whether the
fatal-error handler disabled the job, and the returned/thrown outcome. -/
structure CycleResult where
  savedRebalanceJobs : List RebalanceJobRecord
  jobDisabled : Bool
  outcome : Except String Unit
  deriving Repr, DecidableEq

/-- JavaScript `String.prototype.includes`. -/
def jsIncludes (s pat : String) : Bool :=
  decide (1 < (s.splitOn pat).length)

/-- The fatal-error test of the catch block of `portfolioMonitoring`. -/
def isFatalError (msg : String) : Bool :=
  jsIncludes msg "Not enough balance" || jsIncludes msg "insufficient funds" ||
    jsIncludes msg "gas too low" || jsIncludes msg "out of gas"

/-- The try-block of `portfolioMonitoring` (`portfolioMonitoring.ts`):
existence/activity guard, balance refresh (reflected in
`env.currentAllocations`), empty-allocations guard, threshold check, planning,
swap validation and execution.  No branch constructs a `RebalanceJob`. -/
def portfolioMonitoringBody (env : MonitoringEnv) : Except String Unit :=
  if !(env.portfolioFound && env.isActive) then Except.ok ()
  else if env.currentAllocations.isEmpty then Except.ok ()
  else if env.currentAllocations.any (fun al => al.needsRebalance) then
    match calculateRebalanceSwaps env.currentAllocations (1 / 1000) with
    | Except.error e => Except.error e
    | Except.ok rebalancePlan =>
      if rebalancePlan.isRebalanceNeeded && decide (0 < rebalancePlan.swaps.length) then
        let validSwaps := rebalancePlan.swaps.filter validateSwapOperation
        if decide (0 < validSwaps.length) then
          match (executeRebalanceSwaps env.swapOracle validSwaps).result with
          | Except.ok _ => Except.ok ()
          | Except.error e => Except.error e
        else Except.ok ()
      else Except.ok ()
  else Except.ok ()

/-- `portfolioMonitoring` with its catch block: a fatal-class error disables
the job and rethrows a wrapped message, any other error rethrows unchanged.
The cycle persists no `RebalanceJob` document on any path. -/
def portfolioMonitoring (env : MonitoringEnv) : CycleResult :=
  match portfolioMonitoringBody env with
  | Except.ok _ => { savedRebalanceJobs := [], jobDisabled := false, outcome := Except.ok () }
  | Except.error e =>
    if isFatalError e then
      { savedRebalanceJobs := []
        jobDisabled := true
        outcome := Except.error ("Portfolio monitoring disabled due to fatal error: " ++ e) }
    else
      { savedRebalanceJobs := [], jobDisabled := false, outcome := Except.error e }

/-- `SwapResult` from `dynamicSwapService.ts` (the shape of the per-swap
results passed to `recordRebalanceJob`). -/
structure SwapResult where
  txHash : String
  fromToken : String
  toToken : String
  amountIn : String
  amountOut : String
  deriving Repr, DecidableEq

/-- JavaScript `Math.max(...l)`: `none` models the `-Infinity` of an empty
spread. -/
def jsMathMax : List ℚ → Option ℚ
  | [] => none
  | x :: xs => some (xs.foldl max x)

/-- `PortfolioMonitoringJob.recordRebalanceJob` (`portfolioMonitoringJob.ts`):
the only code in the monitoring flow that builds a `RebalanceJob` document.
Its status is the literal `'executing'` (never `'failed'`), its type the
literal `'threshold'`, and it runs only after a successful execution pass. -/
def PortfolioMonitoringJob.recordRebalanceJob
    (plan : RebalanceService.RebalancePlan) (swapResults : List SwapResult) :
    RebalanceJobRecord :=
  { status := "executing"
    rebalanceType := "threshold"
    deviationDetected := jsMathMax (plan.deviations.map fun d => d.deviation)
    txHashes := swapResults.map fun r => r.txHash }

/-! ### Allocation validation (`portfolioSchema.ts`, `portfolioService.ts`) -/

/-- One element of the `allocations` array of a create/update request. -/
structure AllocationInput where
  assetSymbol : String
  targetPercentage : ℚ
  deriving Repr, DecidableEq

/-- Sum of the submitted target fractions. -/
def allocationsSum (l : List AllocationInput) : ℚ :=
  (l.map fun a => a.targetPercentage).sum

/-- The Zod validation of the `allocations` field shared by
`CreatePortfolioSchema` and `UpdateAllocationsSchema`: a non-empty array whose
elements have a non-empty symbol and a fraction in `[0, 1]`, refined by
`Math.abs(total - 1) < 0.001`. -/
def allocationsSchemaAccepts (l : List AllocationInput) : Bool :=
  decide (1 ≤ l.length) &&
    (l.all fun a =>
      decide (1 ≤ a.assetSymbol.length) && decide (0 ≤ a.targetPercentage) &&
        decide (a.targetPercentage ≤ 1)) &&
    decide (|allocationsSum l - 1| < 1 / 1000)

/-- Persistence effect of `PortfolioService.createPortfolio` restricted to the
allocation documents: which allocations were saved and the outcome. -/
structure ServiceCreateResult where
  savedAllocations : List AllocationInput
  outcome : Except String Unit
  deriving Repr, DecidableEq

/-- The per-allocation save loop of `PortfolioService.createPortfolio` /
`updatePortfolioAllocations`: each allocation is saved after a successful
active-asset lookup (`assetExists`), and a missing asset throws, leaving the
earlier saves in place. -/
def saveAllocationsLoop (assetExists : String → Bool) :
    List AllocationInput → List AllocationInput × Except String Unit
  | [] => ([], Except.ok ())
  | a :: rest =>
    if assetExists a.assetSymbol then
      let r := saveAllocationsLoop assetExists rest
      (a :: r.1, r.2)
    else
      ([], Except.error ("Asset " ++ a.assetSymbol ++ " not found or inactive"))

/-- `PortfolioService.createPortfolio` restricted to the allocation-sum check
and the allocation saves: `Math.abs(totalPercentage - 1) > 0.001` throws before
anything is persisted, otherwise the save loop runs. -/
def createPortfolio (assetExists : String → Bool)
    (allocations : List AllocationInput) : ServiceCreateResult :=
  if 1 / 1000 < |allocationsSum allocations - 1| then
    { savedAllocations := [], outcome := Except.error "Total allocation percentage must equal 100%" }
  else
    let r := saveAllocationsLoop assetExists allocations
    { savedAllocations := r.1, outcome := r.2 }

/-! ### The sorted-greedy matching described by the specification (for C3) -/

/-- Sort one side by USD gap descending, ties broken by symbol lexical order —
this follows the SPEC's words (§4.3 step 3), not the source. -/
def specSortSide (l : List (String × ℚ)) : List (String × ℚ) :=
  List.insertionSort (fun a b => b.2 < a.2 ∨ (a.2 = b.2 ∧ a.1 ≤ b.1)) l

/-- Greedy head-to-head matching of the SPEC (§4.3 steps 4-5): trade
`min(surplus.remaining, deficit.remaining)`, drop a side whose remainder falls
within the 1e-6 epsilon, repeat until one side is exhausted.  Defined from the
spec's words for comparison with the source planner. -/
def specGreedyMatch : List (String × ℚ) → List (String × ℚ) →
    List (String × String × ℚ)
  | [], _ => []
  | _ :: _, [] => []
  | (s, sv) :: ss, (d, dv) :: ds =>
    if sv ≤ dv then
      (s, d, sv) :: specGreedyMatch ss
        (if 1 / 1000000 < dv - sv then (d, dv - sv) :: ds else ds)
    else
      (s, d, dv) :: specGreedyMatch
        (if 1 / 1000000 < sv - dv then (s, sv - dv) :: ss else ss) ds
  termination_by ss ds => ss.length + ds.length
  decreasing_by
    · simp only [List.length_cons]
      split
      · simp only [List.length_cons]
        omega
      · omega
    · simp only [List.length_cons]
      split
      · simp only [List.length_cons]
        omega
      · omega

/-- The full sorted-greedy plan the SPEC describes, over the same
surplus/deficit partition the source planner computes. -/
def specSortedGreedyPlan (allocations : List PortfolioAllocation) :
    List (String × String × ℚ) :=
  let total := (allocations.map fun a => a.currentValueUSD).sum
  let surpluses := allocations.filterMap fun a =>
    let diff := total * a.targetPercentage - a.currentValueUSD
    if diff < 0 then some (a.asset.symbol, |diff|) else none
  let deficits := allocations.filterMap fun a =>
    let diff := total * a.targetPercentage - a.currentValueUSD
    if 0 < diff then some (a.asset.symbol, diff) else none
  specGreedyMatch (specSortSide surpluses) (specSortSide deficits)

/-! ### Concrete instances used by the claim theorems -/

/-- Builder for test allocations (percentages and prices as exact rationals). -/
def mkTestAllocation (sym addr : String) (dec : Nat) (tgt cur price gap : ℚ)
    (nr : Bool) : PortfolioAllocation :=
  { asset := { symbol := sym, address := addr, decimals := dec }
    targetPercentage := tgt
    currentPercentage := 0
    currentValueUSD := cur
    currentPriceUSD := price
    currentBalance := "0"
    gap := gap
    needsRebalance := nr }

/-- C1 instance: a $1000 portfolio, WBTC $600 against a 50% target and USDC
$400 against a 50% target. -/
def c1Allocations : List PortfolioAllocation :=
  [ mkTestAllocation "WBTC" "0xa" 2 (1 / 2) 600 1 (1 / 10) true,
    mkTestAllocation "USDC" "0xb" 2 (1 / 2) 400 1 (-(1 / 10)) true ]

/-- The plan the planner produces for `c1Allocations`: one $100 WBTC→USDC
swap. -/
def c1Plan : RebalancePlan :=
  { swaps := [{ tokenInSymbol := "WBTC", tokenOutSymbol := "USDC",
                tokenInAddress := "0xa", tokenOutAddress := "0xb",
                tokenInDecimals := 2, tokenOutDecimals := 2,
                amountInUSD := 100, amountInTokens := 10000,
                amountOutTokens := 10000, gap := 1 / 5 }]
    totalValueUSD := 1000
    isRebalanceNeeded := true }

/-- C2 instance: three swaps handed to the executor. -/
def c2Swaps : List SwapOperation :=
  [ { tokenInSymbol := "WBTC", tokenOutSymbol := "USDC", tokenInAddress := "0xa",
      tokenOutAddress := "0xb", tokenInDecimals := 2, tokenOutDecimals := 2,
      amountInUSD := 50, amountInTokens := 5000, amountOutTokens := 5000, gap := 3 },
    { tokenInSymbol := "USDC", tokenOutSymbol := "WETH", tokenInAddress := "0xb",
      tokenOutAddress := "0xc", tokenInDecimals := 2, tokenOutDecimals := 2,
      amountInUSD := 30, amountInTokens := 3000, amountOutTokens := 3000, gap := 2 },
    { tokenInSymbol := "WETH", tokenOutSymbol := "WBTC", tokenInAddress := "0xc",
      tokenOutAddress := "0xa", tokenInDecimals := 2, tokenOutDecimals := 2,
      amountInUSD := 20, amountInTokens := 2000, amountOutTokens := 2000, gap := 1 } ]

/-- C2 instance: swap 1 confirms with hash `0xaaa`, swap 2 fails confirmation,
any later attempt would also fail. -/
def c2Oracle : Nat → Except String String := fun i =>
  if i = 0 then Except.ok "0xaaa"
  else Except.error "Transaction 0xbbb not confirmed within 60000ms"

/-- C3 instance: surpluses S1 $100 and S2 $60, deficits D2 $70 and D1 $90 (in
allocation order S1, S2, D2, D1) on a $1000 portfolio. -/
def c3Allocations : List PortfolioAllocation :=
  [ mkTestAllocation "S1" "0x1" 2 (1 / 4) 350 1 (1 / 10) true,
    mkTestAllocation "S2" "0x2" 2 (1 / 5) 260 1 (3 / 50) true,
    mkTestAllocation "D2" "0x3" 2 (1 / 4) 180 1 (-(7 / 100)) true,
    mkTestAllocation "D1" "0x4" 2 (3 / 10) 210 1 (-(9 / 100)) true ]

/-- C3 witness data: the S1 sell entry with $100 remaining. -/
def c3WitnessSellS1 : RebalEntry :=
  { symbol := "S1", targetValueUSD := 250, currentValueUSD := 350, gap := 1 / 10,
    asset := { symbol := "S1", address := "0x1", decimals := 2 }, difference := 100 }

/-- C3 witness data: the sell list state with S1 at $100 and S2 at $60
remaining. -/
def c3WitnessSells : List RebalEntry :=
  [ { symbol := "S1", targetValueUSD := 250, currentValueUSD := 350, gap := 1 / 10,
      asset := { symbol := "S1", address := "0x1", decimals := 2 }, difference := 100 },
    { symbol := "S2", targetValueUSD := 200, currentValueUSD := 260, gap := 3 / 50,
      asset := { symbol := "S2", address := "0x2", decimals := 2 }, difference := 60 } ]

/-- C3 witness data: the deficit entry D1 at $90 remaining. -/
def c3WitnessBuy : RebalEntry :=
  { symbol := "D1", targetValueUSD := 300, currentValueUSD := 210, gap := -(9 / 100),
    asset := { symbol := "D1", address := "0x4", decimals := 2 }, difference := 90 }

/-- C4 instance: asset A (price $3, 1 decimal) holds $100.20 against a 50%
target, asset B $99.80; the $0.20 surplus converts to 1/15 ≈ 0.0667 tokens. -/
def c4Allocations : List PortfolioAllocation :=
  [ mkTestAllocation "A" "0xa" 1 (1 / 2) (501 / 5) 3 0 true,
    mkTestAllocation "B" "0xb" 1 (1 / 2) (499 / 5) 1 0 true ]

/-- C5 instance: WBTC 6% over target (participates under both policies), WETH
and USDC 3% under target (participate only under `strict_periodic` with a 5%
threshold). -/
def c5Deviations : List RebalanceService.DeviationResult :=
  RebalanceService.calculateDeviations (some (1 / 20))
    [("WBTC", 1 / 2), ("WETH", 3 / 10), ("USDC", 1 / 5)]
    [ { assetSymbol := "WBTC", valueUSD := 560 },
      { assetSymbol := "WETH", valueUSD := 270 },
      { assetSymbol := "USDC", valueUSD := 170 } ]

/-- C6 instance: deviations of exactly 4.9% on a $1000 portfolio. -/
def c6Balances : List CurrentBalance :=
  [ { symbol := "WBTC", balance := "549", balanceFormatted := 549, usd := 549, priceUSD := 1 },
    { symbol := "USDC", balance := "451", balanceFormatted := 451, usd := 451, priceUSD := 1 } ]

/-- C6 instance: 50/50 target allocations. -/
def c6AllocationInputs : List (AssetInfo × ℚ) :=
  [ ({ symbol := "WBTC", address := "0xa", decimals := 8 }, 1 / 2),
    ({ symbol := "USDC", address := "0xb", decimals := 6 }, 1 / 2) ]

/-- C6 witness data: balance values giving deviations of exactly 4.9%, 5.1%
and 5.0%. -/
def c6BalanceInfos049 : List RebalanceService.BalanceInfo :=
  [ { assetSymbol := "WBTC", valueUSD := 549 }, { assetSymbol := "USDC", valueUSD := 451 } ]

def c6BalanceInfos051 : List RebalanceService.BalanceInfo :=
  [ { assetSymbol := "WBTC", valueUSD := 551 }, { assetSymbol := "USDC", valueUSD := 449 } ]

def c6BalanceInfos050 : List RebalanceService.BalanceInfo :=
  [ { assetSymbol := "WBTC", valueUSD := 550 }, { assetSymbol := "USDC", valueUSD := 450 } ]

/-- C6 target allocations (50/50). -/
def c6TargetAllocations : List (String × ℚ) := [("WBTC", 1 / 2), ("USDC", 1 / 2)]

/-- C7 instance: target fractions summing to 1.0005 (within the accepted
0.001 tolerance) with both assets at $100: the $0.10 deficit on A has no
surplus to trade against, so the sell list is empty while the buy list is
not. -/
def c7Allocations : List PortfolioAllocation :=
  [ mkTestAllocation "A" "0xa" 2 (1001 / 2000) 100 1 0 true,
    mkTestAllocation "B" "0xb" 2 (1 / 2) 100 1 0 true ]

/-- C7 witness data: a normal surplus/deficit pair. -/
def c7GoodAllocations : List PortfolioAllocation :=
  [ mkTestAllocation "A" "0xa" 2 (1 / 2) 580 1 (8 / 100) true,
    mkTestAllocation "B" "0xb" 2 (1 / 2) 420 1 (-(8 / 100)) true ]

/-- C8 instance: an active portfolio whose single planned swap fails
execution. -/
def c8Allocations : List PortfolioAllocation :=
  [ mkTestAllocation "WBTC" "0xa" 2 (1 / 2) 600 1 (1 / 10) true,
    mkTestAllocation "USDC" "0xb" 2 (1 / 2) 400 1 (-(1 / 10)) true ]

/-- C8 instance: the cycle environment whose swap execution fails with
`boom`. -/
def c8Env : MonitoringEnv :=
  { portfolioFound := true
    isActive := true
    currentAllocations := c8Allocations
    swapOracle := fun _ => Except.error "boom" }

/-- C9 instance: a set whose fractions sum to exactly 1 but whose element
fails the per-element schema bounds (empty symbol). -/
def c9EmptySymbol : List AllocationInput :=
  [ { assetSymbol := "", targetPercentage := 1 } ]

/-- C9 instance: fractions summing to 1.1, violating the sum invariant. -/
def c9Violating : List AllocationInput :=
  [ { assetSymbol := "WBTC", targetPercentage := 7 / 10 },
    { assetSymbol := "USDC", targetPercentage := 2 / 5 } ]

/-- C9 witness data: a well-formed 50/50 request. -/
def c9Good : List AllocationInput :=
  [ { assetSymbol := "WBTC", targetPercentage := 1 / 2 },
    { assetSymbol := "USDC", targetPercentage := 1 / 2 } ]

/-- C10 instance: same portfolio shape as `c3Allocations` (surpluses $100/$60,
deficits $70/$90). -/
def c10Allocations : List PortfolioAllocation :=
  [ mkTestAllocation "S1" "0x1" 2 (1 / 4) 350 1 (1 / 10) true,
    mkTestAllocation "S2" "0x2" 2 (1 / 5) 260 1 (3 / 50) true,
    mkTestAllocation "D2" "0x3" 2 (1 / 4) 180 1 (-(7 / 100)) true,
    mkTestAllocation "D1" "0x4" 2 (3 / 10) 210 1 (-(9 / 100)) true ]

/-- The plan the planner produces for `c10Allocations`. -/
def c10Plan : RebalancePlan :=
  { swaps := [{ tokenInSymbol := "S1", tokenOutSymbol := "D2",
                tokenInAddress := "0x1", tokenOutAddress := "0x3",
                tokenInDecimals := 2, tokenOutDecimals := 2,
                amountInUSD := 70, amountInTokens := 7000,
                amountOutTokens := 7000, gap := 17 / 100 },
              { tokenInSymbol := "S2", tokenOutSymbol := "D1",
                tokenInAddress := "0x2", tokenOutAddress := "0x4",
                tokenInDecimals := 2, tokenOutDecimals := 2,
                amountInUSD := 60, amountInTokens := 6000,
                amountOutTokens := 6000, gap := 3 / 20 }]
    totalValueUSD := 1000
    isRebalanceNeeded := true }

lemma selectSellFold_seed_le (l : List RebalEntry) :
    ∀ x : RebalEntry, x.difference ≤ (selectSellFold x l).difference := by
  induction l with
  | nil => intro x; exact le_refl _
  | cons a rest ih =>
    intro x
    by_cases h : x.difference < a.difference
    · have ha : a.difference ≤ (selectSellFold a rest).difference := ih a
      have : selectSellFold x (a :: rest) = selectSellFold a rest := by
        simp [selectSellFold, List.foldl, h]
      rw [this]
      exact le_trans (le_of_lt h) ha
    · have : selectSellFold x (a :: rest) = selectSellFold x rest := by
        simp [selectSellFold, List.foldl, h]
      rw [this]
      exact ih x

lemma selectSellFold_spec (xs : List RebalEntry) :
    ∀ x : RebalEntry, ∃ l₁ l₂,
      x :: xs = l₁ ++ selectSellFold x xs :: l₂ ∧
      (∀ y ∈ l₁, y.difference < (selectSellFold x xs).difference) ∧
      (∀ y ∈ l₂, y.difference ≤ (selectSellFold x xs).difference) := by
  induction xs with
  | nil =>
    intro x
    exact ⟨[], [], rfl, by simp, by simp⟩
  | cons a rest ih =>
    intro x
    by_cases hlt : x.difference < a.difference
    · obtain ⟨l₁, l₂, hdec, hpre, hsuf⟩ := ih a
      have hsel : selectSellFold x (a :: rest) = selectSellFold a rest := by
        simp [selectSellFold, List.foldl, hlt]
      refine ⟨x :: l₁, l₂, ?_, ?_, ?_⟩
      · rw [hsel]; exact congrArg (x :: ·) hdec
      · intro y hy
        rcases List.mem_cons.mp hy with h | h
        · subst h
          rw [hsel]
          exact lt_of_lt_of_le hlt (selectSellFold_seed_le rest a)
        · rw [hsel]; exact hpre y h
      · intro y hy; rw [hsel]; exact hsuf y hy
    · obtain ⟨l₁, l₂, hdec, hpre, hsuf⟩ := ih x
      have hsel : selectSellFold x (a :: rest) = selectSellFold x rest := by
        simp [selectSellFold, List.foldl, hlt]
      rcases l₁ with _ | ⟨b, l₁'⟩
      · rw [List.nil_append] at hdec
        injection hdec with hx hrest
        refine ⟨[], a :: l₂, ?_, by simp, ?_⟩
        · rw [hsel, List.nil_append, ← hx, ← hrest]
        · intro y hy
          rcases List.mem_cons.mp hy with h | h
          · subst h
            rw [hsel, ← hx]
            exact le_of_not_lt hlt
          · rw [hsel]; exact hsuf y h
      · rw [List.cons_append] at hdec
        injection hdec with hx hrest
        refine ⟨x :: a :: l₁', l₂, ?_, ?_, ?_⟩
        · rw [hsel, List.cons_append, List.cons_append, ← hrest]
        · intro y hy
          have hbdiff : x.difference < (selectSellFold x rest).difference := by
            have := hpre b (List.mem_cons_self b l₁')
            rw [← hx] at this
            exact this
          rcases List.mem_cons.mp hy with h | h
          · subst h; rw [hsel]; exact hbdiff
          · rcases List.mem_cons.mp h with h' | h'
            · subst h'
              rw [hsel]
              exact lt_of_le_of_lt (le_of_not_lt hlt) hbdiff
            · rw [hsel]
              exact hpre y (List.mem_cons_of_mem b h')
        · intro y hy; rw [hsel]; exact hsuf y hy

/-- The `reduce` of `calculateRebalanceSwaps` returns the first entry of the
sell list achieving the maximal remaining difference. -/
lemma selectSell_spec {sells : List RebalEntry} {sell : RebalEntry}
    (h : selectSell sells = some sell) :
    ∃ l₁ l₂, sells = l₁ ++ sell :: l₂ ∧
      (∀ y ∈ l₁, y.difference < sell.difference) ∧
      (∀ y ∈ l₂, y.difference ≤ sell.difference) := by
  rcases sells with _ | ⟨x, xs⟩
  · simp [selectSell] at h
  · have hx : sell = selectSellFold x xs := by
      simpa [selectSell] using h.symm
    obtain ⟨l₁, l₂, hdec, hpre, hsuf⟩ := selectSellFold_spec xs x
    exact ⟨l₁, l₂, by rw [hx]; exact hdec, fun y hy => hx ▸ hpre y hy,
      fun y hy => hx ▸ hsuf y hy⟩

lemma selectSell_mem {sells : List RebalEntry} {sell : RebalEntry}
    (h : selectSell sells = some sell) : sell ∈ sells := by
  obtain ⟨l₁, l₂, hdec, -, -⟩ := selectSell_spec h
  rw [hdec]
  exact List.mem_append_right l₁ (List.mem_cons_self sell l₂)

lemma selectSell_max {sells : List RebalEntry} {sell : RebalEntry}
    (h : selectSell sells = some sell) :
    ∀ x ∈ sells, x.difference ≤ sell.difference := by
  obtain ⟨l₁, l₂, hdec, hpre, hsuf⟩ := selectSell_spec h
  intro x hx
  rw [hdec] at hx
  rcases List.mem_append.mp hx with h' | h'
  · exact le_of_lt (hpre x h')
  · rcases List.mem_cons.mp h' with h'' | h''
    · exact h'' ▸ le_refl _
    · exact hsuf x h''

lemma decrementAtFirst_of_decomp {l₁ l₂ : List RebalEntry} {e : RebalEntry}
    (amt : ℚ) (hpre : ∀ y ∈ l₁, y.difference ≠ e.difference) :
    decrementAtFirst e.difference amt (l₁ ++ e :: l₂) =
      l₁ ++ { e with difference := e.difference - amt } :: l₂ := by
  induction l₁ with
  | nil => simp [decrementAtFirst]
  | cons b l₁' ih =>
    have hb : b.difference ≠ e.difference := hpre b (List.mem_cons_self b l₁')
    simp only [List.cons_append, decrementAtFirst, if_neg hb]
    exact congrArg (b :: ·) (ih fun y hy => hpre y (List.mem_cons_of_mem b hy))

lemma symbolDiffSum_append (s : String) (l₁ l₂ : List RebalEntry) :
    symbolDiffSum s (l₁ ++ l₂) = symbolDiffSum s l₁ + symbolDiffSum s l₂ := by
  simp [symbolDiffSum, List.filter_append]

lemma symbolDiffSum_cons (s : String) (e : RebalEntry) (l : List RebalEntry) :
    symbolDiffSum s (e :: l) =
      (if e.symbol = s then e.difference else 0) + symbolDiffSum s l := by
  by_cases h : e.symbol = s
  · simp [symbolDiffSum, List.filter_cons, h]
  · simp [symbolDiffSum, List.filter_cons, h]

lemma symbolDiffSum_nonneg (s : String) (l : List RebalEntry)
    (h : ∀ e ∈ l, 0 ≤ e.difference) : 0 ≤ symbolDiffSum s l := by
  refine List.sum_nonneg ?_
  intro q hq
  obtain ⟨e, he, rfl⟩ := List.mem_map.mp hq
  exact h e (List.mem_of_mem_filter he)

lemma sumFromSymbol_append (s : String) (l₁ l₂ : List SwapOperation) :
    sumFromSymbol s (l₁ ++ l₂) = sumFromSymbol s l₁ + sumFromSymbol s l₂ := by
  simp [sumFromSymbol, List.filter_append]

lemma sumFromSymbol_singleton (s : String) (w : SwapOperation) :
    sumFromSymbol s [w] = if w.tokenInSymbol = s then w.amountInUSD else 0 := by
  by_cases h : w.tokenInSymbol = s
  · simp [sumFromSymbol, List.filter_cons, h]
  · simp [sumFromSymbol, List.filter_cons, h]

lemma sumToSymbol_append (s : String) (l₁ l₂ : List SwapOperation) :
    sumToSymbol s (l₁ ++ l₂) = sumToSymbol s l₁ + sumToSymbol s l₂ := by
  simp [sumToSymbol, List.filter_append]

lemma sumToSymbol_singleton (s : String) (w : SwapOperation) :
    sumToSymbol s [w] = if w.tokenOutSymbol = s then w.amountInUSD else 0 := by
  by_cases h : w.tokenOutSymbol = s
  · simp [sumToSymbol, List.filter_cons, h]
  · simp [sumToSymbol, List.filter_cons, h]

lemma processBuys_from_bound (allocs : List PortfolioAllocation) :
    ∀ (buys sells : List RebalEntry) (acc out : List SwapOperation) (s : String),
      (∀ e ∈ sells, 0 ≤ e.difference) →
      processBuys allocs sells buys acc = Except.ok out →
      sumFromSymbol s out ≤ sumFromSymbol s acc + symbolDiffSum s sells := by
  intro buys
  induction buys with
  | nil =>
    intro sells acc out s hnn h
    simp only [processBuys, Except.ok.injEq] at h
    subst h
    exact le_add_of_nonneg_right (symbolDiffSum_nonneg s sells hnn)
  | cons buy rest ih =>
    intro sells acc out s hnn h
    simp only [processBuys] at h
    rcases hsel : selectSell sells with _ | sell
    · simp only [hsel] at h; exact absurd h (by simp)
    · simp only [hsel] at h
      by_cases hgt : (1 : ℚ) / 100 < sell.difference
      · rw [if_pos hgt] at h
        rcases hfs : allocs.find? (fun a => a.asset.symbol = sell.symbol) with _ | sellAlloc
        · simp only [hfs] at h
          exact ih sells acc out s hnn h
        · simp only [hfs] at h
          rcases hfb : allocs.find? (fun a => a.asset.symbol = buy.symbol) with _ | buyAlloc
          · simp only [hfb] at h
            exact ih sells acc out s hnn h
          · simp only [hfb] at h
            obtain ⟨l₁, l₂, hdec, hpre, hsuf⟩ := selectSell_spec hsel
            set amt := min sell.difference buy.difference with hamt
            have hdf : decrementAtFirst sell.difference amt sells =
                l₁ ++ { sell with difference := sell.difference - amt } :: l₂ := by
              rw [hdec]
              exact decrementAtFirst_of_decomp amt (fun y hy => ne_of_lt (hpre y hy))
            have hnn' : ∀ e ∈ decrementAtFirst sell.difference amt sells,
                0 ≤ e.difference := by
              rw [hdf]
              intro e he
              rcases List.mem_append.mp he with h' | h'
              · exact hnn e (hdec ▸ List.mem_append_left _ h')
              · rcases List.mem_cons.mp h' with h'' | h''
                · subst h''
                  simp only [sub_nonneg]
                  exact min_le_left _ _
                · exact hnn e (hdec ▸ List.mem_append_right _ (List.mem_cons_of_mem _ h''))
            have hb := ih (decrementAtFirst sell.difference amt sells) (acc ++ [mkSwapOp sell buy sellAlloc buyAlloc amt]) out s hnn' h
            rw [sumFromSymbol_append, sumFromSymbol_singleton, hdf,
              symbolDiffSum_append, symbolDiffSum_cons] at hb
            rw [hdec, symbolDiffSum_append, symbolDiffSum_cons]
            have hws : (mkSwapOp sell buy sellAlloc buyAlloc amt).tokenInSymbol = sell.symbol := rfl
            have hwa : (mkSwapOp sell buy sellAlloc buyAlloc amt).amountInUSD = amt := rfl
            rw [hws, hwa] at hb
            dsimp only at hb
            by_cases hsym : sell.symbol = s
            · simp only [hsym, if_true, eq_self_iff_true] at hb ⊢
              linarith
            · simp only [hsym, if_false] at hb ⊢
              linarith
      · rw [if_neg hgt] at h
        exact ih sells acc out s hnn h

lemma processBuys_to_bound (allocs : List PortfolioAllocation) :
    ∀ (buys sells : List RebalEntry) (acc out : List SwapOperation) (s : String),
      (∀ e ∈ buys, 0 ≤ e.difference) →
      processBuys allocs sells buys acc = Except.ok out →
      sumToSymbol s out ≤ sumToSymbol s acc + symbolDiffSum s buys := by
  intro buys
  induction buys with
  | nil =>
    intro sells acc out s _ h
    simp only [processBuys, Except.ok.injEq] at h
    subst h
    simp [symbolDiffSum]
  | cons buy rest ih =>
    intro sells acc out s hnn h
    have hnnr : ∀ e ∈ rest, 0 ≤ e.difference :=
      fun e he => hnn e (List.mem_cons_of_mem buy he)
    have hb0 : 0 ≤ buy.difference := hnn buy (List.mem_cons_self buy rest)
    rw [symbolDiffSum_cons]
    simp only [processBuys] at h
    rcases hsel : selectSell sells with _ | sell
    · simp only [hsel] at h; exact absurd h (by simp)
    · simp only [hsel] at h
      by_cases hgt : (1 : ℚ) / 100 < sell.difference
      · rw [if_pos hgt] at h
        rcases hfs : allocs.find? (fun a => a.asset.symbol = sell.symbol) with _ | sellAlloc
        · simp only [hfs] at h
          have := ih sells acc out s hnnr h
          have hpos : (0 : ℚ) ≤ if buy.symbol = s then buy.difference else 0 := by
            by_cases hsym : buy.symbol = s <;> simp [hsym, hb0]
          linarith
        · simp only [hfs] at h
          rcases hfb : allocs.find? (fun a => a.asset.symbol = buy.symbol) with _ | buyAlloc
          · simp only [hfb] at h
            have := ih sells acc out s hnnr h
            have hpos : (0 : ℚ) ≤ if buy.symbol = s then buy.difference else 0 := by
              by_cases hsym : buy.symbol = s <;> simp [hsym, hb0]
            linarith
          · simp only [hfb] at h
            set amt := min sell.difference buy.difference with hamt
            have hb := ih (decrementAtFirst sell.difference amt sells)
              (acc ++ [mkSwapOp sell buy sellAlloc buyAlloc amt]) out s hnnr h
            rw [sumToSymbol_append, sumToSymbol_singleton] at hb
            have hws : (mkSwapOp sell buy sellAlloc buyAlloc amt).tokenOutSymbol = buy.symbol := rfl
            have hwa : (mkSwapOp sell buy sellAlloc buyAlloc amt).amountInUSD = amt := rfl
            rw [hws, hwa] at hb
            have hamtle : amt ≤ buy.difference := min_le_right _ _
            by_cases hsym : buy.symbol = s
            · simp only [hsym, if_true, eq_self_iff_true] at hb ⊢
              linarith
            · simp only [hsym, if_false] at hb ⊢
              linarith
      · rw [if_neg hgt] at h
        have := ih sells acc out s hnnr h
        have hpos : (0 : ℚ) ≤ if buy.symbol = s then buy.difference else 0 := by
          by_cases hsym : buy.symbol = s <;> simp [hsym, hb0]
        linarith

lemma processBuys_count_bound (allocs : List PortfolioAllocation) :
    ∀ (buys sells : List RebalEntry) (acc out : List SwapOperation) (s : String),
      processBuys allocs sells buys acc = Except.ok out →
      out.countP (fun w => w.tokenOutSymbol = s) ≤
        acc.countP (fun w => w.tokenOutSymbol = s) +
          buys.countP (fun e => e.symbol = s) := by
  intro buys
  induction buys with
  | nil =>
    intro sells acc out s h
    simp only [processBuys, Except.ok.injEq] at h
    subst h
    simp
  | cons buy rest ih =>
    intro sells acc out s h
    rw [List.countP_cons]
    simp only [processBuys] at h
    rcases hsel : selectSell sells with _ | sell
    · simp only [hsel] at h; exact absurd h (by simp)
    · simp only [hsel] at h
      by_cases hgt : (1 : ℚ) / 100 < sell.difference
      · rw [if_pos hgt] at h
        rcases hfs : allocs.find? (fun a => a.asset.symbol = sell.symbol) with _ | sellAlloc
        · simp only [hfs] at h
          have := ih sells acc out s h
          omega
        · simp only [hfs] at h
          rcases hfb : allocs.find? (fun a => a.asset.symbol = buy.symbol) with _ | buyAlloc
          · simp only [hfb] at h
            have := ih sells acc out s h
            omega
          · simp only [hfb] at h
            set amt := min sell.difference buy.difference with hamt
            have hb := ih (decrementAtFirst sell.difference amt sells)
              (acc ++ [mkSwapOp sell buy sellAlloc buyAlloc amt]) out s h
            rw [List.countP_append, List.countP_cons, List.countP_nil] at hb
            have hws : (mkSwapOp sell buy sellAlloc buyAlloc amt).tokenOutSymbol = buy.symbol := rfl
            rw [hws] at hb
            omega
      · rw [if_neg hgt] at h
        have := ih sells acc out s h
        omega

lemma assetsToSell_cons (total : ℚ) (a : PortfolioAllocation)
    (l : List PortfolioAllocation) :
    assetsToSell total (a :: l) =
      (if total * a.targetPercentage - a.currentValueUSD < 0 then
        [mkEntry total a |total * a.targetPercentage - a.currentValueUSD|] else []) ++
        assetsToSell total l := by
  by_cases h : total * a.targetPercentage < a.currentValueUSD
  · simp [assetsToSell, List.filterMap_cons, sub_neg, h]
  · simp [assetsToSell, List.filterMap_cons, sub_neg, h]

lemma assetsToBuy_cons (total : ℚ) (a : PortfolioAllocation)
    (l : List PortfolioAllocation) :
    assetsToBuy total (a :: l) =
      (if 0 < total * a.targetPercentage - a.currentValueUSD then
        [mkEntry total a (total * a.targetPercentage - a.currentValueUSD)] else []) ++
        assetsToBuy total l := by
  by_cases h : a.currentValueUSD < total * a.targetPercentage
  · simp [assetsToBuy, List.filterMap_cons, sub_pos, h]
  · simp [assetsToBuy, List.filterMap_cons, sub_pos, h]

lemma assetsToSell_nonneg (total : ℚ) (l : List PortfolioAllocation) :
    ∀ e ∈ assetsToSell total l, 0 ≤ e.difference := by
  intro e he
  obtain ⟨a, -, ha⟩ := List.mem_filterMap.mp he
  by_cases h : total * a.targetPercentage - a.currentValueUSD < 0
  · rw [if_pos h] at ha
    cases ha
    exact abs_nonneg _
  · rw [if_neg h] at ha
    cases ha

lemma assetsToBuy_nonneg (total : ℚ) (l : List PortfolioAllocation) :
    ∀ e ∈ assetsToBuy total l, 0 ≤ e.difference := by
  intro e he
  obtain ⟨a, -, ha⟩ := List.mem_filterMap.mp he
  by_cases h : 0 < total * a.targetPercentage - a.currentValueUSD
  · rw [if_pos h] at ha
    cases ha
    exact le_of_lt h
  · rw [if_neg h] at ha
    cases ha

lemma assetsToSell_symbol_mem (total : ℚ) (l : List PortfolioAllocation) :
    ∀ e ∈ assetsToSell total l, e.symbol ∈ l.map fun a => a.asset.symbol := by
  intro e he
  obtain ⟨a, hal, ha⟩ := List.mem_filterMap.mp he
  by_cases h : total * a.targetPercentage - a.currentValueUSD < 0
  · rw [if_pos h] at ha
    cases ha
    exact List.mem_map.mpr ⟨a, hal, rfl⟩
  · rw [if_neg h] at ha
    cases ha

lemma assetsToBuy_symbol_mem (total : ℚ) (l : List PortfolioAllocation) :
    ∀ e ∈ assetsToBuy total l, e.symbol ∈ l.map fun a => a.asset.symbol := by
  intro e he
  obtain ⟨a, hal, ha⟩ := List.mem_filterMap.mp he
  by_cases h : 0 < total * a.targetPercentage - a.currentValueUSD
  · rw [if_pos h] at ha
    cases ha
    exact List.mem_map.mpr ⟨a, hal, rfl⟩
  · rw [if_neg h] at ha
    cases ha

lemma symbolDiffSum_eq_zero_of_not_mem (s : String) (total : ℚ)
    (l : List PortfolioAllocation) (h : s ∉ l.map fun a => a.asset.symbol) :
    symbolDiffSum s (assetsToSell total l) = 0 := by
  have : (assetsToSell total l).filter (fun e => e.symbol = s) = [] := by
    rw [List.filter_eq_nil]
    intro e he hsym
    rw [decide_eq_true_eq] at hsym
    exact h (hsym ▸ assetsToSell_symbol_mem total l e he)
  simp [symbolDiffSum, this]

lemma symbolDiffSum_buy_eq_zero_of_not_mem (s : String) (total : ℚ)
    (l : List PortfolioAllocation) (h : s ∉ l.map fun a => a.asset.symbol) :
    symbolDiffSum s (assetsToBuy total l) = 0 := by
  have : (assetsToBuy total l).filter (fun e => e.symbol = s) = [] := by
    rw [List.filter_eq_nil]
    intro e he hsym
    rw [decide_eq_true_eq] at hsym
    exact h (hsym ▸ assetsToBuy_symbol_mem total l e he)
  simp [symbolDiffSum, this]

lemma symbolDiffSum_sell_init (total : ℚ) (l : List PortfolioAllocation)
    (hnd : (l.map fun a => a.asset.symbol).Nodup) {a : PortfolioAllocation}
    (ha : a ∈ l) :
    symbolDiffSum a.asset.symbol (assetsToSell total l) ≤
      max (a.currentValueUSD - total * a.targetPercentage) 0 := by
  induction l with
  | nil => cases ha
  | cons b t ih =>
    rw [List.map_cons, List.nodup_cons] at hnd
    rw [assetsToSell_cons, symbolDiffSum_append]
    rcases List.mem_cons.mp ha with rfl | hat
    · have htail : symbolDiffSum a.asset.symbol (assetsToSell total t) = 0 :=
        symbolDiffSum_eq_zero_of_not_mem _ total t hnd.1
      rw [htail, add_zero]
      by_cases h : total * a.targetPercentage - a.currentValueUSD < 0
      · rw [if_pos h, symbolDiffSum_cons]
        have : (mkEntry total a |total * a.targetPercentage - a.currentValueUSD|).symbol
            = a.asset.symbol := rfl
        rw [this, if_pos rfl]
        have habs : |total * a.targetPercentage - a.currentValueUSD| =
            a.currentValueUSD - total * a.targetPercentage := by
          rw [abs_of_neg h]; ring
        simp only [symbolDiffSum, List.filter_nil, List.map_nil, List.sum_nil, add_zero]
        rw [show (mkEntry total a |total * a.targetPercentage - a.currentValueUSD|).difference
            = |total * a.targetPercentage - a.currentValueUSD| from rfl, habs]
        exact le_max_left _ _
      · rw [if_neg h]
        simp [symbolDiffSum]
    · have hb : b.asset.symbol ≠ a.asset.symbol := by
        intro hcontra
        exact hnd.1 (hcontra ▸ List.mem_map.mpr ⟨a, hat, rfl⟩)
      have hhead : symbolDiffSum a.asset.symbol
          (if total * b.targetPercentage - b.currentValueUSD < 0 then
            [mkEntry total b |total * b.targetPercentage - b.currentValueUSD|] else []) = 0 := by
        by_cases h : total * b.targetPercentage - b.currentValueUSD < 0
        · rw [if_pos h, symbolDiffSum_cons]
          simp [symbolDiffSum, mkEntry, hb]
        · rw [if_neg h]; simp [symbolDiffSum]
      rw [hhead, zero_add]
      exact ih hnd.2 hat

lemma symbolDiffSum_buy_init (total : ℚ) (l : List PortfolioAllocation)
    (hnd : (l.map fun a => a.asset.symbol).Nodup) {a : PortfolioAllocation}
    (ha : a ∈ l) :
    symbolDiffSum a.asset.symbol (assetsToBuy total l) ≤
      max (total * a.targetPercentage - a.currentValueUSD) 0 := by
  induction l with
  | nil => cases ha
  | cons b t ih =>
    rw [List.map_cons, List.nodup_cons] at hnd
    rw [assetsToBuy_cons, symbolDiffSum_append]
    rcases List.mem_cons.mp ha with rfl | hat
    · have htail : symbolDiffSum a.asset.symbol (assetsToBuy total t) = 0 :=
        symbolDiffSum_buy_eq_zero_of_not_mem _ total t hnd.1
      rw [htail, add_zero]
      by_cases h : 0 < total * a.targetPercentage - a.currentValueUSD
      · rw [if_pos h, symbolDiffSum_cons]
        have : (mkEntry total a (total * a.targetPercentage - a.currentValueUSD)).symbol
            = a.asset.symbol := rfl
        rw [this, if_pos rfl]
        simp only [symbolDiffSum, List.filter_nil, List.map_nil, List.sum_nil, add_zero]
        rw [show (mkEntry total a (total * a.targetPercentage - a.currentValueUSD)).difference
            = total * a.targetPercentage - a.currentValueUSD from rfl]
        exact le_max_left _ _
      · rw [if_neg h]
        simp [symbolDiffSum]
    · have hb : b.asset.symbol ≠ a.asset.symbol := by
        intro hcontra
        exact hnd.1 (hcontra ▸ List.mem_map.mpr ⟨a, hat, rfl⟩)
      have hhead : symbolDiffSum a.asset.symbol
          (if 0 < total * b.targetPercentage - b.currentValueUSD then
            [mkEntry total b (total * b.targetPercentage - b.currentValueUSD)] else []) = 0 := by
        by_cases h : 0 < total * b.targetPercentage - b.currentValueUSD
        · rw [if_pos h, symbolDiffSum_cons]
          simp [symbolDiffSum, mkEntry, hb]
        · rw [if_neg h]; simp [symbolDiffSum]
      rw [hhead, zero_add]
      exact ih hnd.2 hat

lemma countP_buy_eq_zero_of_not_mem (s : String) (total : ℚ)
    (l : List PortfolioAllocation) (h : s ∉ l.map fun a => a.asset.symbol) :
    (assetsToBuy total l).countP (fun e => e.symbol = s) = 0 := by
  rw [List.countP_eq_zero]
  intro e he hsym
  rw [decide_eq_true_eq] at hsym
  exact h (hsym ▸ assetsToBuy_symbol_mem total l e he)

lemma countP_buy_le_one (total : ℚ) (l : List PortfolioAllocation)
    (hnd : (l.map fun a => a.asset.symbol).Nodup) (s : String) :
    (assetsToBuy total l).countP (fun e => e.symbol = s) ≤ 1 := by
  induction l with
  | nil => simp [assetsToBuy]
  | cons b t ih =>
    rw [List.map_cons, List.nodup_cons] at hnd
    rw [assetsToBuy_cons, List.countP_append]
    by_cases hcond : 0 < total * b.targetPercentage - b.currentValueUSD
    · rw [if_pos hcond, List.countP_cons, List.countP_nil]
      have hent : (mkEntry total b (total * b.targetPercentage - b.currentValueUSD)).symbol
          = b.asset.symbol := rfl
      by_cases hsym : b.asset.symbol = s
      · have htail : (assetsToBuy total t).countP (fun e => e.symbol = s) = 0 :=
          countP_buy_eq_zero_of_not_mem s total t (hsym ▸ hnd.1)
        rw [htail]
        simp [hent, hsym]
      · have : (decide ((mkEntry total b
            (total * b.targetPercentage - b.currentValueUSD)).symbol = s)) = false := by
          simp [hent, hsym]
        rw [this]
        simp only [Bool.false_eq_true, if_false, add_zero, List.countP_nil, zero_add]
        exact ih hnd.2
    · rw [if_neg hcond, List.countP_nil]
      have := ih hnd.2
      omega

lemma calculateRebalanceSwaps_ok_cases
    {allocations : List PortfolioAllocation} {tolerance : ℚ} {plan : RebalancePlan}
    (hok : calculateRebalanceSwaps allocations tolerance = Except.ok plan) :
    plan.swaps = [] ∨
      ∃ raw, processBuys allocations
          (assetsToSell ((allocations.map fun a => a.currentValueUSD).sum) allocations)
          (assetsToBuy ((allocations.map fun a => a.currentValueUSD).sum) allocations) [] =
          Except.ok raw ∧
        plan.swaps.Perm raw := by
  unfold calculateRebalanceSwaps at hok
  by_cases h0 : (allocations.map fun a => a.currentValueUSD).sum = 0
  · rw [if_pos h0] at hok
    left
    cases hok
    rfl
  · rw [if_neg h0] at hok
    by_cases h1 : (allocations.filter fun a => a.needsRebalance).isEmpty
    · rw [if_pos h1] at hok
      left
      cases hok
      rfl
    · rw [if_neg h1] at hok
      rcases hp : processBuys allocations
          (assetsToSell ((allocations.map fun a => a.currentValueUSD).sum) allocations)
          (assetsToBuy ((allocations.map fun a => a.currentValueUSD).sum) allocations) []
          with e | raw
      · rw [hp] at hok
        exact absurd hok (by simp)
      · rw [hp] at hok
        right
        refine ⟨raw, hp, ?_⟩
        simp only [Except.ok.injEq] at hok
        rw [← hok]
        exact List.perm_insertionSort _ raw

lemma range_map_shift (i n : Nat) :
    i :: (List.range n).map ((i + 1) + ·) = (List.range (n + 1)).map (i + ·) := by
  rw [List.range_succ_eq_map, List.map_cons, List.map_map]
  have h2 : (List.range n).map ((i + 1) + ·) = (List.range n).map ((i + ·) ∘ Nat.succ) := by
    apply List.map_congr_left
    intro x _
    simp only [Function.comp_apply]
    omega
  rw [h2, Nat.add_zero]

lemma executeSwapsFrom_fail (oracle : Nat → Except String String) :
    ∀ (swaps : List SwapOperation) (i : Nat) (acc : List String)
      (k : Nat) (msg : String), k < swaps.length →
      oracle (i + k) = Except.error msg →
      (∀ j, j < k → ∃ h, oracle (i + j) = Except.ok h) →
      executeSwapsFrom oracle i acc swaps =
        { attempted := (List.range (k + 1)).map (i + ·)
          result := Except.error
            ("Rebalancing stopped at swap " ++ toString (i + k + 1) ++ ": " ++ msg) } := by
  intro swaps
  induction swaps with
  | nil =>
    intro i acc k msg hk
    simp at hk
  | cons w rest ih =>
    intro i acc k msg hk hfail hpre
    cases k with
    | zero =>
      rw [Nat.add_zero] at hfail
      simp only [executeSwapsFrom, hfail]
      congr 1
    | succ k' =>
      obtain ⟨h0, hh0⟩ := hpre 0 (Nat.succ_pos k')
      rw [Nat.add_zero] at hh0
      simp only [executeSwapsFrom, hh0]
      have hrec := ih (i + 1) (acc ++ [h0]) k' msg
        (by simpa using Nat.lt_of_succ_lt_succ hk)
        (by rw [show i + 1 + k' = i + (k' + 1) by omega]; exact hfail)
        (fun j hj => by
          rw [show i + 1 + j = i + (j + 1) by omega]
          exact hpre (j + 1) (Nat.succ_lt_succ hj))
      rw [hrec]
      have hmap : i :: (List.range (k' + 1)).map ((i + 1) + ·) =
          (List.range (k' + 1 + 1)).map (i + ·) := range_map_shift i (k' + 1)
      have hidx : i + 1 + k' + 1 = i + (k' + 1) + 1 := by omega
      simp only [← hmap, hidx]

lemma executeSwapsFrom_all_ok (oracle : Nat → Except String String) :
    ∀ (swaps : List SwapOperation) (i : Nat) (acc : List String),
      (∀ j, j < swaps.length → (oracle (i + j)).isOk) →
      ∃ hashes, executeSwapsFrom oracle i acc swaps =
        { attempted := (List.range swaps.length).map (i + ·)
          result := Except.ok (acc ++ hashes) } := by
  intro swaps
  induction swaps with
  | nil =>
    intro i acc _
    exact ⟨[], by simp [executeSwapsFrom]⟩
  | cons w rest ih =>
    intro i acc hok
    have h0 := hok 0 (Nat.succ_pos _)
    rw [Nat.add_zero] at h0
    rcases hh : oracle i with msg | h
    · rw [hh] at h0; simp [Except.isOk, Except.toBool] at h0
    · obtain ⟨hs, hrec⟩ := ih (i + 1) (acc ++ [h])
        (fun j hj => by
          rw [show i + 1 + j = i + (j + 1) by omega]
          exact hok (j + 1) (Nat.succ_lt_succ hj))
      refine ⟨h :: hs, ?_⟩
      simp only [executeSwapsFrom, hh, hrec]
      have hmap : i :: (List.range rest.length).map ((i + 1) + ·) =
          (List.range (rest.length + 1)).map (i + ·) := range_map_shift i rest.length
      simp only [List.length_cons, ← hmap, List.append_assoc, List.singleton_append]

/-- C2 (counterexample): for the 3-swap sequence `c2Swaps` where swap 1
confirms as `0xaaa` and swap 2 fails confirmation, the executor of
`swapUtils.ts` does NOT return the list containing the confirmed hash of swap
1: it throws `Rebalancing stopped at swap 2`, discarding the collected
`txHashes` array, after attempting only swaps 1 and 2. -/
theorem c2_executor_counterexample :
    executeRebalanceSwaps c2Oracle c2Swaps =
      { attempted := [0, 1]
        result := Except.error
          ("Rebalancing stopped at swap 2: Transaction 0xbbb not confirmed within 60000ms") } ∧
    (executeRebalanceSwaps c2Oracle c2Swaps).result ≠ Except.ok ["0xaaa"] ∧
    2 ∉ (executeRebalanceSwaps c2Oracle c2Swaps).attempted := by
  refine ⟨by decide, by decide, by decide⟩

/-- C2 (amended): the executor submits swaps strictly sequentially in list
order; when the first failure is at (0-based) index `k`, exactly swaps
`0..k` were submitted (later swaps never run) and it throws an error naming
the 1-based index `k + 1` and the failure reason — the hashes confirmed before
the failure are discarded rather than returned.  When every swap succeeds it
returns all hashes in order. -/
theorem c2_executor_abort_amended (oracle : Nat → Except String String)
    (swaps : List SwapOperation) (k : Nat) (msg : String)
    (hk : k < swaps.length)
    (hfail : oracle k = Except.error msg)
    (hpre : ∀ j, j < k → ∃ h, oracle j = Except.ok h) :
    executeRebalanceSwaps oracle swaps =
      { attempted := List.range (k + 1)
        result := Except.error
          ("Rebalancing stopped at swap " ++ toString (k + 1) ++ ": " ++ msg) } := by
  have h := executeSwapsFrom_fail oracle swaps 0 [] k msg hk
    (by simpa using hfail) (fun j hj => by simpa using hpre j hj)
  rw [executeRebalanceSwaps, h]
  simp

/-- C2 witness: the amended theorem applied to the concrete 3-swap instance. -/
theorem c2_executor_abort_amended_witness :
    executeRebalanceSwaps c2Oracle c2Swaps =
      { attempted := List.range (1 + 1)
        result := Except.error
          ("Rebalancing stopped at swap " ++ toString (1 + 1) ++ ": " ++
            "Transaction 0xbbb not confirmed within 60000ms") } :=
  c2_executor_abort_amended c2Oracle c2Swaps 1
    "Transaction 0xbbb not confirmed within 60000ms" (by decide) (by decide)
    (fun j hj => ⟨"0xaaa", by
      have : j = 0 := by omega
      subst this
      decide⟩)

/-- C6 (counterexample): the deviation flag computed by
`calculateCurrentAllocations` (`balanceUtils.ts`) ignores the portfolio's
`rebalanceThreshold` entirely: with both assets at deviation `0.049` — below a
`0.05` threshold, where the claim requires `needsRebalance = false` — it
returns `needsRebalance = true`, because it gates on the fixed tolerance
`Math.abs(gap) > 0.001`. -/
theorem c6_threshold_gating_counterexample :
    (calculateCurrentAllocations c6Balances c6AllocationInputs).map
        (fun a => (a.asset.symbol, |a.currentPercentage - a.targetPercentage|,
          a.needsRebalance)) =
      [("WBTC", 49 / 1000, true), ("USDC", 49 / 1000, true)] ∧
    (49 : ℚ) / 1000 < 1 / 20 := by
  refine ⟨by with_unfolding_all rfl, of_decide_eq_true (by with_unfolding_all rfl)⟩

/-- C6 (amended): in `RebalanceService.calculateDeviations` the gate is indeed
the strict comparison `deviation > (portfolio.rebalanceThreshold || 0.05)`, so
with threshold `0.05` a deviation of `0.049` or exactly `0.05` yields `false`
and `0.051` yields `true`; but in `calculateCurrentAllocations`
(`balanceUtils.ts`, the other flag producer) the flag is `|gap| > 0.001`
independent of the portfolio threshold. -/
theorem c6_threshold_gating_amended (rebalanceThreshold : Option ℚ)
    (allocations : List (String × ℚ)) (balances : List RebalanceService.BalanceInfo)
    (r : RebalanceService.DeviationResult)
    (hr : r ∈ RebalanceService.calculateDeviations rebalanceThreshold allocations balances) :
    (r.needsRebalance = true ↔ jsOrQ rebalanceThreshold (1 / 20) < r.deviation) := by
  rw [RebalanceService.calculateDeviations] at hr
  obtain ⟨al, -, heq⟩ := List.mem_filterMap.mp hr
  rcases hfind : balances.find? (fun b => b.assetSymbol = al.1) with _ | b
  · simp only [hfind] at heq
    exact Option.noConfusion heq
  · simp only [hfind, Option.some.injEq] at heq
    subst heq
    simp only [decide_eq_true_eq]

/-- C6 witness: the amended gate applied to the 4.9% instance, together with
the concrete 4.9% / 5.1% / 5.0% evaluations of `calculateDeviations` under a
5% threshold. -/
theorem c6_threshold_gating_amended_witness :
    (∀ r ∈ RebalanceService.calculateDeviations (some (1 / 20)) c6TargetAllocations
        c6BalanceInfos049, (r.needsRebalance = true ↔ jsOrQ (some (1 / 20)) (1 / 20) < r.deviation)) ∧
    ((RebalanceService.calculateDeviations (some (1 / 20)) c6TargetAllocations
        c6BalanceInfos049).map fun r => (r.deviation, r.needsRebalance)) =
      [(49 / 1000, false), (49 / 1000, false)] ∧
    ((RebalanceService.calculateDeviations (some (1 / 20)) c6TargetAllocations
        c6BalanceInfos051).map fun r => (r.deviation, r.needsRebalance)) =
      [(51 / 1000, true), (51 / 1000, true)] ∧
    ((RebalanceService.calculateDeviations (some (1 / 20)) c6TargetAllocations
        c6BalanceInfos050).map fun r => (r.deviation, r.needsRebalance)) =
      [(1 / 20, false), (1 / 20, false)] := by
  refine ⟨?_, by with_unfolding_all rfl, by with_unfolding_all rfl, by with_unfolding_all rfl⟩
  intro r hr
  exact c6_threshold_gating_amended (some (1 / 20)) c6TargetAllocations c6BalanceInfos049 r hr

/-- C8 (counterexample): a monitoring cycle whose single swap fails execution
ends with the error propagated upward, but NO `RebalanceJob` record is
persisted — in particular none with status `failed` — contradicting the claim
that a failed cycle always leaves such an audit record. -/
theorem c8_failed_cycle_counterexample :
    (portfolioMonitoring c8Env).outcome =
      Except.error "Rebalancing stopped at swap 1: boom" ∧
    (portfolioMonitoring c8Env).savedRebalanceJobs = [] ∧
    ((portfolioMonitoring c8Env).savedRebalanceJobs.filter
      fun r => r.status = "failed") = [] := by
  refine ⟨by with_unfolding_all rfl, by with_unfolding_all rfl, by with_unfolding_all rfl⟩

/-- C8 (amended): `portfolioMonitoring` persists no `RebalanceJob` record on
any path (a failing cycle only rethrows its error, wrapped when it matches the
fatal class); the sole `RebalanceJob` constructor in the monitoring flow,
`PortfolioMonitoringJob.recordRebalanceJob`, hard-codes status `'executing'` —
never `'failed'` — and runs only on the successful execution path. -/
theorem c8_audit_amended :
    (∀ env : MonitoringEnv, (portfolioMonitoring env).savedRebalanceJobs = []) ∧
    (∀ (plan : RebalanceService.RebalancePlan) (swapResults : List SwapResult),
      (PortfolioMonitoringJob.recordRebalanceJob plan swapResults).status = "executing") ∧
    (∀ (env : MonitoringEnv) (e : String), portfolioMonitoringBody env = Except.error e →
      isFatalError e = false → (portfolioMonitoring env).outcome = Except.error e) := by
  refine ⟨?_, fun _ _ => rfl, ?_⟩
  · intro env
    rw [portfolioMonitoring]
    rcases portfolioMonitoringBody env with e | u
    · by_cases hf : isFatalError e
      · simp [hf]
      · simp [hf]
    · rfl
  · intro env e hbody hfatal
    rw [portfolioMonitoring, hbody]
    simp [hfatal]

/-- C8 witness: the amended theorem's propagation clause applied to the
failing concrete cycle. -/
theorem c8_audit_amended_witness :
    (portfolioMonitoring c8Env).outcome =
      Except.error "Rebalancing stopped at swap 1: boom" :=
  c8_audit_amended.2.2 c8Env "Rebalancing stopped at swap 1: boom"
    (by with_unfolding_all rfl) (by with_unfolding_all rfl)

/-- C9 (counterexample): an allocation set whose fractions sum to exactly 1
(so `|sum - 1| < 0.001` holds) is nevertheless rejected by the schema, because
its element has an empty asset symbol — the "accepted if and only if the sum
bound holds" claim fails in the `if` direction. -/
theorem c9_sum_iff_counterexample :
    allocationsSchemaAccepts c9EmptySymbol = false ∧
    |allocationsSum c9EmptySymbol - 1| < 1 / 1000 := by
  refine ⟨by with_unfolding_all rfl, of_decide_eq_true (by with_unfolding_all rfl)⟩

/-- C9 (amended): every schema-accepted allocation set satisfies
`|sum(targetPercentage) - 1| < 0.001`; among non-empty sets whose elements are
individually well-formed (non-empty symbol, fraction in `[0, 1]`), acceptance
is exactly the sum bound; and a set with `|sum - 1| > 0.001` is rejected by
`PortfolioService.createPortfolio` before any allocation is persisted. -/
theorem c9_allocation_sum_amended :
    (∀ l : List AllocationInput,
      allocationsSchemaAccepts l = true → |allocationsSum l - 1| < 1 / 1000) ∧
    (∀ l : List AllocationInput, l ≠ [] →
      (∀ a ∈ l, 1 ≤ a.assetSymbol.length ∧ 0 ≤ a.targetPercentage ∧ a.targetPercentage ≤ 1) →
      (allocationsSchemaAccepts l = true ↔ |allocationsSum l - 1| < 1 / 1000)) ∧
    (∀ (assetExists : String → Bool) (l : List AllocationInput),
      1 / 1000 < |allocationsSum l - 1| →
      createPortfolio assetExists l =
        { savedAllocations := []
          outcome := Except.error "Total allocation percentage must equal 100%" }) := by
  refine ⟨?_, ?_, ?_⟩
  · intro l hl
    simp only [allocationsSchemaAccepts, Bool.and_eq_true, decide_eq_true_eq] at hl
    exact hl.2
  · intro l hne helems
    simp only [allocationsSchemaAccepts, Bool.and_eq_true, decide_eq_true_eq,
      List.all_eq_true]
    constructor
    · exact fun h => h.2
    · intro hsum
      refine ⟨⟨?_, ?_⟩, hsum⟩
      · rcases l with _ | ⟨a, t⟩
        · exact absurd rfl hne
        · exact Nat.le_add_left 1 _
      · intro a ha
        obtain ⟨h1, h2, h3⟩ := helems a ha
        first
        | exact ⟨⟨h1, h2⟩, h3⟩
        | exact ⟨h1, h2, h3⟩
        | simp_all
  · intro assetExists l hsum
    rw [createPortfolio, if_pos hsum]

/-- C9 witness: the amended equivalence applied to a well-formed 50/50 set,
and the pre-persistence rejection applied to a set summing to 1.1. -/
theorem c9_allocation_sum_amended_witness :
    (allocationsSchemaAccepts c9Good = true ↔ |allocationsSum c9Good - 1| < 1 / 1000) ∧
    createPortfolio (fun _ => true) c9Violating =
      { savedAllocations := []
        outcome := Except.error "Total allocation percentage must equal 100%" } := by
  constructor
  · exact c9_allocation_sum_amended.2.1 c9Good (by simp [c9Good])
      (by
        intro a ha
        fin_cases ha <;>
          exact ⟨by decide, of_decide_eq_true (by with_unfolding_all rfl),
            of_decide_eq_true (by with_unfolding_all rfl)⟩)
  · exact c9_allocation_sum_amended.2.2 (fun _ => true) c9Violating
      (of_decide_eq_true (by with_unfolding_all rfl))

/-- C3 (counterexample): on `c3Allocations` (surpluses S1 $100 / S2 $60,
deficits D2 $70 / D1 $90) the planner emits `[S1→D2 $70, S2→D1 $60]`: the
largest deficit D1 is never paired with the largest surplus S1, because the
deficit list is processed in allocation order and never sorted.  The sorted
greedy matching that the claim (and spec §4.3) describes would instead emit
`[S1→D1 $90, S1→D2 $10, S2→D2 $60]`. -/
theorem c3_sorted_greedy_counterexample :
    (calculateRebalanceSwaps c3Allocations (1 / 1000)).map
        (fun p => p.swaps.map fun w => (w.tokenInSymbol, w.tokenOutSymbol, w.amountInUSD)) =
      Except.ok [("S1", "D2", 70), ("S2", "D1", 60)] ∧
    specSortedGreedyPlan c3Allocations =
      [("S1", "D1", 90), ("S1", "D2", 10), ("S2", "D2", 60)] ∧
    ([("S1", "D2", (70 : ℚ)), ("S2", "D1", 60)] : List (String × String × ℚ)) ≠
      [("S1", "D1", 90), ("S1", "D2", 10), ("S2", "D2", 60)] := by
  refine ⟨by with_unfolding_all rfl, by with_unfolding_all rfl,
    of_decide_eq_true (by with_unfolding_all rfl)⟩

/-- C3 (amended): neither list is sorted; deficits are taken in allocation
order, and each is paired against the surplus entry with the largest remaining
difference at that moment (the FIRST such entry on ties, not symbol order),
trading `min(surplus.remaining, deficit.remaining)` — this theorem
characterizes one loop iteration of `calculateRebalanceSwaps`: the selected
sell entry is a maximal-difference member of the remaining sell list and the
emitted swap carries the min. -/
theorem c3_matching_amended (sells : List RebalEntry) (sell : RebalEntry)
    (allocs : List PortfolioAllocation) (buy : RebalEntry) (buys : List RebalEntry)
    (acc : List SwapOperation) (sellAlloc buyAlloc : PortfolioAllocation)
    (hsel : selectSell sells = some sell)
    (hgt : 1 / 100 < sell.difference)
    (hfs : allocs.find? (fun a => a.asset.symbol = sell.symbol) = some sellAlloc)
    (hfb : allocs.find? (fun a => a.asset.symbol = buy.symbol) = some buyAlloc) :
    sell ∈ sells ∧ (∀ x ∈ sells, x.difference ≤ sell.difference) ∧
      processBuys allocs sells (buy :: buys) acc =
        processBuys allocs
          (decrementAtFirst sell.difference (min sell.difference buy.difference) sells)
          buys (acc ++ [mkSwapOp sell buy sellAlloc buyAlloc (min sell.difference buy.difference)]) := by
  refine ⟨selectSell_mem hsel, selectSell_max hsel, ?_⟩
  simp only [processBuys, hsel, if_pos hgt, hfs, hfb]

/-- C3 witness: one loop iteration on the concrete state with S1 at $100 and
S2 at $60 remaining against the $90 deficit D1. -/
theorem c3_matching_amended_witness :
    c3WitnessSellS1 ∈ c3WitnessSells ∧
    (∀ x ∈ c3WitnessSells, x.difference ≤ c3WitnessSellS1.difference) ∧
    processBuys c3Allocations c3WitnessSells (c3WitnessBuy :: []) [] =
      processBuys c3Allocations
        (decrementAtFirst c3WitnessSellS1.difference
          (min c3WitnessSellS1.difference c3WitnessBuy.difference) c3WitnessSells)
        []
        ([] ++ [mkSwapOp c3WitnessSellS1 c3WitnessBuy
          (mkTestAllocation "S1" "0x1" 2 (1 / 4) 350 1 (1 / 10) true)
          (mkTestAllocation "D1" "0x4" 2 (3 / 10) 210 1 (-(9 / 100)) true)
          (min c3WitnessSellS1.difference c3WitnessBuy.difference)]) :=
  c3_matching_amended c3WitnessSells c3WitnessSellS1 c3Allocations
    c3WitnessBuy [] [] (mkTestAllocation "S1" "0x1" 2 (1 / 4) 350 1 (1 / 10) true)
    (mkTestAllocation "D1" "0x4" 2 (3 / 10) 210 1 (-(9 / 100)) true)
    (by with_unfolding_all rfl) (of_decide_eq_true (by with_unfolding_all rfl))
    (by with_unfolding_all rfl) (by with_unfolding_all rfl)

lemma decrementAtFirst_ne_nil {l : List RebalEntry} (m amt : ℚ) (h : l ≠ []) :
    decrementAtFirst m amt l ≠ [] := by
  rcases l with _ | ⟨a, t⟩
  · exact absurd rfl h
  · rw [decrementAtFirst]
    by_cases hd : a.difference = m
    · simp [hd]
    · simp [hd]

lemma processBuys_ok_of_sells_ne_nil (allocs : List PortfolioAllocation) :
    ∀ (buys sells : List RebalEntry) (acc : List SwapOperation), sells ≠ [] →
      ∃ out, processBuys allocs sells buys acc = Except.ok out := by
  intro buys
  induction buys with
  | nil =>
    intro sells acc _
    exact ⟨acc, by simp [processBuys]⟩
  | cons buy rest ih =>
    intro sells acc hne
    rcases hl : sells with _ | ⟨x, xs⟩
    · exact absurd hl hne
    · have hsel : selectSell (x :: xs) = some (selectSellFold x xs) := rfl
      by_cases hgt : (1 : ℚ) / 100 < (selectSellFold x xs).difference
      · rcases hfs : allocs.find?
            (fun a => a.asset.symbol = (selectSellFold x xs).symbol) with _ | sellAlloc
        · obtain ⟨out, hout⟩ := ih (x :: xs) acc (by simp)
          refine ⟨out, ?_⟩
          simp only [processBuys, hsel, if_pos hgt, hfs]
          exact hout
        · rcases hfb : allocs.find? (fun a => a.asset.symbol = buy.symbol) with _ | buyAlloc
          · obtain ⟨out, hout⟩ := ih (x :: xs) acc (by simp)
            refine ⟨out, ?_⟩
            simp only [processBuys, hsel, if_pos hgt, hfs, hfb]
            exact hout
          · obtain ⟨out, hout⟩ := ih
              (decrementAtFirst (selectSellFold x xs).difference
                (min (selectSellFold x xs).difference buy.difference) (x :: xs))
              (acc ++ [mkSwapOp (selectSellFold x xs) buy sellAlloc buyAlloc
                (min (selectSellFold x xs).difference buy.difference)])
              (decrementAtFirst_ne_nil _ _ (by simp))
            refine ⟨out, ?_⟩
            simp only [processBuys, hsel, if_pos hgt, hfs, hfb]
            exact hout
      · obtain ⟨out, hout⟩ := ih (x :: xs) acc (by simp)
        refine ⟨out, ?_⟩
        simp only [processBuys, hsel, if_neg hgt]
        exact hout

/-- C7 (counterexample): target fractions summing to 1.0005 — accepted by the
creation validator's 0.001 tolerance — put every asset at or below its target,
so the sell list is empty while the buy list is not; the planner then does NOT
return normally with the deficit unfilled: the empty-array `reduce` throws a
`TypeError`. -/
theorem c7_unfilled_deficit_counterexample :
    calculateRebalanceSwaps c7Allocations (1 / 1000) =
      Except.error "Reduce of empty array with no initial value" ∧
    assetsToSell 200 c7Allocations = [] ∧
    assetsToBuy 200 c7Allocations ≠ [] := by
  refine ⟨by with_unfolding_all rfl, by with_unfolding_all rfl,
    of_decide_eq_true (by with_unfolding_all rfl)⟩

/-- C7 (amended): whenever at least one surplus exists (or no deficit exists
at all), the planner returns normally — a deficit whose counterpart surplus is
exhausted is simply left unfilled (the `> $0.01` guard skips it).  Only the
corner case of an empty surplus list with a non-empty deficit list throws
(empty-array `reduce`). -/
theorem c7_no_crash_amended (allocations : List PortfolioAllocation) (tolerance : ℚ)
    (h : assetsToSell ((allocations.map fun x => x.currentValueUSD).sum) allocations ≠ [] ∨
      assetsToBuy ((allocations.map fun x => x.currentValueUSD).sum) allocations = []) :
    ∃ plan, calculateRebalanceSwaps allocations tolerance = Except.ok plan := by
  rw [calculateRebalanceSwaps]
  by_cases h0 : (allocations.map fun x => x.currentValueUSD).sum = 0
  · rw [if_pos (by simpa using h0)]
    exact ⟨_, rfl⟩
  · rw [if_neg (by simpa using h0)]
    by_cases h1 : (allocations.filter fun a => a.needsRebalance).isEmpty
    · rw [if_pos h1]
      exact ⟨_, rfl⟩
    · rw [if_neg h1]
      rcases h with hsell | hbuy
      · obtain ⟨out, hout⟩ := processBuys_ok_of_sells_ne_nil allocations
          (assetsToBuy ((allocations.map fun x => x.currentValueUSD).sum) allocations)
          (assetsToSell ((allocations.map fun x => x.currentValueUSD).sum) allocations)
          [] (by simpa using hsell)
        rw [hout]
        exact ⟨_, rfl⟩
      · rw [hbuy]
        simp only [processBuys]
        exact ⟨_, rfl⟩

/-- C7 witness: a normal surplus/deficit portfolio has a non-empty sell list
and the planner succeeds on it. -/
theorem c7_no_crash_amended_witness :
    (assetsToSell ((c7GoodAllocations.map fun x => x.currentValueUSD).sum)
        c7GoodAllocations ≠ [] ∨
      assetsToBuy ((c7GoodAllocations.map fun x => x.currentValueUSD).sum)
        c7GoodAllocations = []) ∧
    ∃ plan, calculateRebalanceSwaps c7GoodAllocations (1 / 1000) = Except.ok plan := by
  have h : assetsToSell ((c7GoodAllocations.map fun x => x.currentValueUSD).sum)
      c7GoodAllocations ≠ [] ∨
      assetsToBuy ((c7GoodAllocations.map fun x => x.currentValueUSD).sum)
        c7GoodAllocations = [] :=
    Or.inl (of_decide_eq_true (by with_unfolding_all rfl))
  exact ⟨h, c7_no_crash_amended c7GoodAllocations (1 / 1000) h⟩

lemma jsToFixedUnits_close (x : ℚ) (d : Nat) :
    |(jsToFixedUnits x d : ℚ) - x * 10 ^ d| ≤ 1 / 2 := by
  rw [jsToFixedUnits]
  have h1 : ((Int.floor (x * (10 : ℚ) ^ d + 1 / 2) : Int) : ℚ) ≤ x * 10 ^ d + 1 / 2 :=
    Int.floor_le _
  have h2 : x * (10 : ℚ) ^ d + 1 / 2 < (Int.floor (x * (10 : ℚ) ^ d + 1 / 2) : Int) + 1 :=
    Int.lt_floor_add_one _
  rw [abs_le]
  constructor
  · linarith
  · linarith

lemma processBuys_swap_src (allocs : List PortfolioAllocation) :
    ∀ (buys sells : List RebalEntry) (acc out : List SwapOperation),
      processBuys allocs sells buys acc = Except.ok out →
      ∀ w ∈ out, w ∈ acc ∨ ∃ a ∈ allocs, a.asset.symbol = w.tokenInSymbol ∧
        w.amountInTokens = jsToFixedUnits (w.amountInUSD / a.currentPriceUSD) w.tokenInDecimals := by
  intro buys
  induction buys with
  | nil =>
    intro sells acc out h w hw
    simp only [processBuys, Except.ok.injEq] at h
    subst h
    exact Or.inl hw
  | cons buy rest ih =>
    intro sells acc out h w hw
    simp only [processBuys] at h
    rcases hsel : selectSell sells with _ | sell
    · simp only [hsel] at h; exact absurd h (by simp)
    · simp only [hsel] at h
      by_cases hgt : (1 : ℚ) / 100 < sell.difference
      · rw [if_pos hgt] at h
        rcases hfs : allocs.find? (fun a => a.asset.symbol = sell.symbol) with _ | sellAlloc
        · simp only [hfs] at h
          exact ih sells acc out h w hw
        · simp only [hfs] at h
          rcases hfb : allocs.find? (fun a => a.asset.symbol = buy.symbol) with _ | buyAlloc
          · simp only [hfb] at h
            exact ih sells acc out h w hw
          · simp only [hfb] at h
            rcases ih _ _ _ h w hw with hacc | hfound
            · rcases List.mem_append.mp hacc with h' | h'
              · exact Or.inl h'
              · right
                rcases List.mem_singleton.mp h' with rfl
                refine ⟨sellAlloc, List.mem_of_find?_eq_some hfs, ?_, rfl⟩
                have := List.find?_some hfs
                rw [decide_eq_true_eq] at this
                exact this
            · exact Or.inr hfound
      · rw [if_neg hgt] at h
        exact ih sells acc out h w hw

/-- C4 (counterexample): converting the $0.20 surplus of asset A (price $3,
1 decimal) gives `0.2 / 3 = 0.0666...` tokens; the planner emits integer
amount `1` (i.e. 0.1 tokens), because `toFixed` rounds to NEAREST: the emitted
amount strictly exceeds `amountUSD / price` in smallest units, whereas
rounding down would emit `0`. -/
theorem c4_floor_rounding_counterexample :
    (calculateRebalanceSwaps c4Allocations (1 / 1000)).map
        (fun p => p.swaps.map fun w => w.amountInTokens) = Except.ok [1] ∧
    ((1 : ℚ) / 5) / 3 * 10 ^ (1 : Nat) < 1 ∧
    Int.floor (((1 : ℚ) / 5) / 3 * 10 ^ (1 : Nat)) = 0 := by
  refine ⟨by with_unfolding_all rfl,
    of_decide_eq_true (by with_unfolding_all rfl), ?_⟩
  have : ((1 : ℚ) / 5) / 3 * 10 ^ (1 : Nat) = 2 / 3 := by norm_num
  rw [this]
  norm_num [Int.floor_eq_iff]

/-- C4 (amended): every emitted swap's source token amount is
`amountInUSD / sourcePrice` rounded to the NEAREST multiple of one smallest
unit (ECMAScript `toFixed`, ties upward) — not rounded down — so it can exceed
`amountUSD / price` by up to half a smallest unit, and it always lies within
half a smallest unit of the exact value. -/
theorem c4_rounding_amended (allocations : List PortfolioAllocation) (tolerance : ℚ)
    (plan : RebalancePlan)
    (hok : calculateRebalanceSwaps allocations tolerance = Except.ok plan)
    (w : SwapOperation) (hw : w ∈ plan.swaps) :
    ∃ a ∈ allocations, a.asset.symbol = w.tokenInSymbol ∧
      w.amountInTokens = jsToFixedUnits (w.amountInUSD / a.currentPriceUSD) w.tokenInDecimals ∧
      |(w.amountInTokens : ℚ) - w.amountInUSD / a.currentPriceUSD * 10 ^ w.tokenInDecimals| ≤ 1 / 2 := by
  rcases calculateRebalanceSwaps_ok_cases hok with hempty | ⟨raw, hp, hperm⟩
  · rw [hempty] at hw
    cases hw
  · have hwraw : w ∈ raw := hperm.mem_iff.mp hw
    rcases processBuys_swap_src allocations _ _ _ _ hp w hwraw with habs | ⟨a, ha, hsym, htok⟩
    · cases habs
    · refine ⟨a, ha, hsym, htok, ?_⟩
      rw [htok]
      exact jsToFixedUnits_close _ _

/-- C4 witness: the amended characterization applied to the single swap of the
concrete instance. -/
theorem c4_rounding_amended_witness :
    ∃ a ∈ c4Allocations, a.asset.symbol = "A" ∧
      (1 : Int) = jsToFixedUnits ((1 / 5 : ℚ) / a.currentPriceUSD) 1 ∧
      |((1 : Int) : ℚ) - (1 / 5 : ℚ) / a.currentPriceUSD * 10 ^ (1 : Nat)| ≤ 1 / 2 := by
  have h := c4_rounding_amended c4Allocations (1 / 1000)
    { swaps := [{ tokenInSymbol := "A", tokenOutSymbol := "B",
                  tokenInAddress := "0xa", tokenOutAddress := "0xb",
                  tokenInDecimals := 1, tokenOutDecimals := 1,
                  amountInUSD := 1 / 5, amountInTokens := 1,
                  amountOutTokens := 2, gap := 0 }]
      totalValueUSD := 200
      isRebalanceNeeded := true }
    (by with_unfolding_all rfl)
    { tokenInSymbol := "A", tokenOutSymbol := "B",
      tokenInAddress := "0xa", tokenOutAddress := "0xb",
      tokenInDecimals := 1, tokenOutDecimals := 1,
      amountInUSD := 1 / 5, amountInTokens := 1,
      amountOutTokens := 2, gap := 0 }
    (List.mem_singleton.mpr rfl)
  simpa using h

lemma sumFromSymbol_perm (s : String) {l₁ l₂ : List SwapOperation} (h : l₁.Perm l₂) :
    sumFromSymbol s l₁ = sumFromSymbol s l₂ :=
  ((h.filter _).map _).sum_eq

lemma sumToSymbol_perm (s : String) {l₁ l₂ : List SwapOperation} (h : l₁.Perm l₂) :
    sumToSymbol s l₁ = sumToSymbol s l₂ :=
  ((h.filter _).map _).sum_eq

/-- C1: plan conservation.  For any allocation set with pairwise-distinct
asset symbols and positive total value, in a successfully produced plan the
total `amountInUSD` sold out of an asset never exceeds its surplus
`currentValueUSD - targetValueUSD` (and is zero for non-surplus assets), and
the total bought into an asset never exceeds its deficit
`targetValueUSD - currentValueUSD` (zero for non-deficit assets); surplus and
deficit are expressed through their nonnegative parts `max · 0`. -/
theorem c1_plan_conservation (allocations : List PortfolioAllocation)
    (tolerance : ℚ) (plan : RebalancePlan)
    (hnd : (allocations.map fun x => x.asset.symbol).Nodup)
    (hpos : 0 < (allocations.map fun x => x.currentValueUSD).sum)
    (hok : calculateRebalanceSwaps allocations tolerance = Except.ok plan)
    (a : PortfolioAllocation) (ha : a ∈ allocations) :
    sumFromSymbol a.asset.symbol plan.swaps ≤
      max (a.currentValueUSD -
        (allocations.map fun x => x.currentValueUSD).sum * a.targetPercentage) 0 ∧
    sumToSymbol a.asset.symbol plan.swaps ≤
      max ((allocations.map fun x => x.currentValueUSD).sum * a.targetPercentage -
        a.currentValueUSD) 0 := by
  rcases calculateRebalanceSwaps_ok_cases hok with hempty | ⟨raw, hp, hperm⟩
  · rw [hempty]
    constructor
    · simpa [sumFromSymbol] using le_max_right _ 0
    · simpa [sumToSymbol] using le_max_right _ 0
  · constructor
    · rw [sumFromSymbol_perm _ hperm]
      have hb := processBuys_from_bound allocations _ _ [] raw a.asset.symbol
        (assetsToSell_nonneg _ allocations) hp
      have hinit := symbolDiffSum_sell_init
        ((allocations.map fun x => x.currentValueUSD).sum) allocations hnd ha
      have hacc : sumFromSymbol a.asset.symbol ([] : List SwapOperation) = 0 := by
        simp [sumFromSymbol]
      rw [hacc, zero_add] at hb
      exact le_trans hb hinit
    · rw [sumToSymbol_perm _ hperm]
      have hb := processBuys_to_bound allocations _ _ [] raw a.asset.symbol
        (assetsToBuy_nonneg _ allocations) hp
      have hinit := symbolDiffSum_buy_init
        ((allocations.map fun x => x.currentValueUSD).sum) allocations hnd ha
      have hacc : sumToSymbol a.asset.symbol ([] : List SwapOperation) = 0 := by
        simp [sumToSymbol]
      rw [hacc, zero_add] at hb
      exact le_trans hb hinit

set_option maxRecDepth 4000 in
/-- C1 witness: conservation on the concrete $1000 WBTC/USDC portfolio, whose
plan sells $100 of WBTC (surplus $100) into USDC (deficit $100). -/
theorem c1_plan_conservation_witness :
    sumFromSymbol "WBTC" c1Plan.swaps ≤
      max ((600 : ℚ) - (c1Allocations.map fun x => x.currentValueUSD).sum * (1 / 2)) 0 ∧
    sumToSymbol "WBTC" c1Plan.swaps ≤
      max ((c1Allocations.map fun x => x.currentValueUSD).sum * (1 / 2) - (600 : ℚ)) 0 :=
  c1_plan_conservation c1Allocations (1 / 1000) c1Plan
    (of_decide_eq_true (by with_unfolding_all rfl))
    (of_decide_eq_true (by with_unfolding_all rfl))
    (by with_unfolding_all rfl)
    (mkTestAllocation "WBTC" "0xa" 2 (1 / 2) 600 1 (1 / 10) true)
    (of_decide_eq_true (by with_unfolding_all rfl))

/-- C10: in every successfully produced plan over symbol-distinct allocations,
each asset is the destination of at most one swap (each deficit is paired with
a single surplus); and on the concrete `c10Allocations` portfolio the $90
deficit D1 receives only $60 (from S2) and stays partially unfilled even
though S1 still holds $30 of unsold surplus. -/
theorem c10_single_surplus_matching :
    (∀ (allocations : List PortfolioAllocation) (tolerance : ℚ) (plan : RebalancePlan),
      (allocations.map fun x => x.asset.symbol).Nodup →
      calculateRebalanceSwaps allocations tolerance = Except.ok plan →
      ∀ s : String, plan.swaps.countP (fun w => w.tokenOutSymbol = s) ≤ 1) ∧
    (calculateRebalanceSwaps c10Allocations (1 / 1000)).map
        (fun p => (sumToSymbol "D1" p.swaps, sumFromSymbol "S1" p.swaps)) =
      Except.ok (60, 70) ∧
    (60 : ℚ) < 90 ∧ (70 : ℚ) + 30 = 100 := by
  refine ⟨?_, by with_unfolding_all rfl,
    of_decide_eq_true (by with_unfolding_all rfl),
    of_decide_eq_true (by with_unfolding_all rfl)⟩
  intro allocations tolerance plan hnd hok s
  rcases calculateRebalanceSwaps_ok_cases hok with hempty | ⟨raw, hp, hperm⟩
  · rw [hempty]
    simp
  · rw [hperm.countP_eq]
    have hcount := processBuys_count_bound allocations _ _ [] raw s hp
    rw [List.countP_nil, Nat.zero_add] at hcount
    exact le_trans hcount (countP_buy_le_one _ allocations hnd s)

set_option maxRecDepth 4000 in
/-- C10 witness: the at-most-one-destination bound applied to the concrete
plan of `c10Allocations`. -/
theorem c10_single_surplus_matching_witness :
    c10Plan.swaps.countP (fun w => w.tokenOutSymbol = "D1") ≤ 1 :=
  c10_single_surplus_matching.1 c10Allocations (1 / 1000) c10Plan
    (of_decide_eq_true (by with_unfolding_all rfl))
    (by with_unfolding_all rfl) "D1"

lemma swapFor_filterMap_length (e : RebalanceService.DeviationResult)
    (he : e.needsRebalance = true) (df : List RebalanceService.DeviationResult)
    (hdf : ∀ d ∈ df, d.needsRebalance = true) :
    (df.filterMap (RebalanceService.swapFor e)).length =
      if 0 < (e.currentValueUSD - e.targetValueUSD) / 2 then df.length else 0 := by
  induction df with
  | nil => simp
  | cons d rest ih =>
    have hd : d.needsRebalance = true := hdf d (List.mem_cons_self d rest)
    have hrest := ih fun x hx => hdf x (List.mem_cons_of_mem d hx)
    rw [List.filterMap_cons]
    by_cases hpos : 0 < (e.currentValueUSD - e.targetValueUSD) / 2
    · have hsome : RebalanceService.swapFor e d =
          some { fromAsset := e.assetSymbol
                 toAsset := d.assetSymbol
                 amount := (e.currentValueUSD - e.targetValueUSD) / 2 / (e.currentValueUSD / 1)
                 expectedAmount := (e.currentValueUSD - e.targetValueUSD) / 2
                 reason := "Rééquilibrage: " ++ e.assetSymbol ++ " -> " ++ d.assetSymbol } := by
        rw [RebalanceService.swapFor]
        simp only [he, hd, Bool.and_self, if_true, if_pos hpos]
      rw [hsome, List.length_cons, hrest, if_pos hpos, if_pos hpos, List.length_cons]
    · have hnone : RebalanceService.swapFor e d = none := by
        rw [RebalanceService.swapFor]
        simp only [he, hd, Bool.and_self, if_true, if_neg hpos]
      rw [hnone, hrest, if_neg hpos, if_neg hpos]

lemma swapFor_flatMap_length (ex df : List RebalanceService.DeviationResult)
    (hex : ∀ e ∈ ex, e.needsRebalance = true)
    (hdf : ∀ d ∈ df, d.needsRebalance = true) :
    (ex.flatMap fun e => df.filterMap (RebalanceService.swapFor e)).length =
      (ex.countP fun e => decide (0 < (e.currentValueUSD - e.targetValueUSD) / 2)) *
        df.length := by
  induction ex with
  | nil => simp
  | cons e rest ih =>
    have he : e.needsRebalance = true := hex e (List.mem_cons_self e rest)
    have hrest := ih fun x hx => hex x (List.mem_cons_of_mem e hx)
    rw [List.flatMap_cons, List.length_append, hrest,
      swapFor_filterMap_length e he df hdf, List.countP_cons]
    by_cases hpos : 0 < (e.currentValueUSD - e.targetValueUSD) / 2
    · rw [if_pos hpos, if_pos (by simpa using hpos)]
      ring
    · rw [if_neg hpos, if_neg (by simpa using hpos)]
      ring

lemma generateSwapOperations_length (devs : List RebalanceService.DeviationResult)
    (total : ℚ) :
    (RebalanceService.generateSwapOperations devs total).length =
      (devs.countP fun d =>
        (decide (0 < (d.currentValueUSD - d.targetValueUSD) / 2) &&
          decide (d.targetPercentage < d.currentPercentage)) && d.needsRebalance) *
      (devs.countP fun d =>
        decide (d.currentPercentage < d.targetPercentage) && d.needsRebalance) := by
  rw [RebalanceService.generateSwapOperations]
  have hperm : (List.insertionSort (fun a b => b.deviation ≤ a.deviation)
      (devs.filter fun d => d.needsRebalance)).Perm
      (devs.filter fun d => d.needsRebalance) :=
    List.perm_insertionSort _ _
  have hmemneeds : ∀ e ∈ List.insertionSort (fun a b => b.deviation ≤ a.deviation)
      (devs.filter fun d => d.needsRebalance), e.needsRebalance = true := by
    intro e he
    exact List.of_mem_filter (hperm.mem_iff.mp he)
  rw [swapFor_flatMap_length]
  · rw [List.countP_filter, hperm.countP_eq, List.countP_filter]
    have hlen : ((List.insertionSort (fun a b => b.deviation ≤ a.deviation)
        (devs.filter fun d => d.needsRebalance)).filter
          fun d => d.currentPercentage < d.targetPercentage).length =
        devs.countP fun d =>
          decide (d.currentPercentage < d.targetPercentage) && d.needsRebalance := by
      rw [← List.countP_eq_length_filter, hperm.countP_eq, List.countP_filter]
    rw [hlen]
  · intro e he
    exact hmemneeds e (List.mem_of_mem_filter he)
  · intro d hd
    exact hmemneeds d (List.mem_of_mem_filter hd)

/-- C5 (spec-modelled strict planner): under the threshold policy only flagged
deviations participate; under `strict_periodic` every nonzero deviation
participates.  Whenever the flags are consistent with a nonnegative threshold
(a flagged asset has nonzero deviation), the strict plan contains at least as
many swaps as the threshold plan. -/
theorem c5_strict_periodic_aggressiveness
    (deviations : List RebalanceService.DeviationResult) (totalValueUSD : ℚ)
    (hgate : ∀ d ∈ deviations, d.needsRebalance = true → d.deviation ≠ 0) :
    (RebalanceService.generateSwapOperations deviations totalValueUSD).length ≤
      (createStrictRebalanceSwaps deviations totalValueUSD).length := by
  rw [createStrictRebalanceSwaps, generateSwapOperations_length,
    generateSwapOperations_length, List.countP_map, List.countP_map]
  have h1 : (deviations.countP fun d =>
      (decide (0 < (d.currentValueUSD - d.targetValueUSD) / 2) &&
        decide (d.targetPercentage < d.currentPercentage)) && d.needsRebalance) ≤
      deviations.countP ((fun d =>
        (decide (0 < (d.currentValueUSD - d.targetValueUSD) / 2) &&
          decide (d.targetPercentage < d.currentPercentage)) && d.needsRebalance) ∘
        fun d => { d with needsRebalance := decide (d.deviation ≠ 0) }) := by
    apply List.countP_mono_left
    intro d hd hdp
    simp only [Function.comp_apply, Bool.and_eq_true, decide_eq_true_eq] at hdp ⊢
    exact ⟨hdp.1, hgate d hd hdp.2⟩
  have h2 : (deviations.countP fun d =>
      decide (d.currentPercentage < d.targetPercentage) && d.needsRebalance) ≤
      deviations.countP ((fun d =>
        decide (d.currentPercentage < d.targetPercentage) && d.needsRebalance) ∘
        fun d => { d with needsRebalance := decide (d.deviation ≠ 0) }) := by
    apply List.countP_mono_left
    intro d hd hdp
    simp only [Function.comp_apply, Bool.and_eq_true, decide_eq_true_eq] at hdp ⊢
    exact ⟨hdp.1, hgate d hd hdp.2⟩
  exact Nat.mul_le_mul h1 h2

set_option maxRecDepth 8000 in
/-- C5 witness: on a deviation set where WBTC is 6% over target and WETH/USDC
are 3% under (below the 5% threshold), the threshold plan is empty while the
strict plan trades — 0 ≤ 2 swaps. -/
theorem c5_strict_periodic_aggressiveness_witness :
    (RebalanceService.generateSwapOperations c5Deviations 1000).length ≤
      (createStrictRebalanceSwaps c5Deviations 1000).length ∧
    (RebalanceService.generateSwapOperations c5Deviations 1000).length = 0 ∧
    (createStrictRebalanceSwaps c5Deviations 1000).length = 2 := by
  refine ⟨c5_strict_periodic_aggressiveness c5Deviations 1000 ?_,
    by with_unfolding_all rfl, by with_unfolding_all rfl⟩
  intro d hd hflag
  have hmem : d ∈ c5Deviations := hd
  fin_cases hmem <;>
    first
    | exact of_decide_eq_true (by with_unfolding_all rfl)
    | exact absurd hflag (by with_unfolding_all decide)
